import Mathlib

/-!
# Verification of the blarser-prototype game-state machine

A shallow embedding of `src/GameState.py`: the event-driven game-state
machine that reconstructs Blaseball game documents from feed events.

Conventions of the embedding:

* Python `assert` failures, `KeyError`/`ValueError`/`IndexError` and the
  other fatal conditions of §7 of the spec are modelled by `Option`:
  a handler returns `none` exactly when the Python code would abort the
  reconstruction of the game.
* Python `int` fields are `Int` (several of them are decremented and the
  source has no underflow clamping); `playCount` only ever grows and is a
  `Nat`.  Scores are Python numbers that are only ever added, and every
  addend is a multiple of 0.1 (`1` per scored run, `0.2` for
  blaserunning, integer home-run counts); the embedding stores them as
  exact integer *tenths of a run* — the fixed-point representation §9 of
  the spec calls for — and `tenthsStr` renders such a value the way
  Python renders the corresponding number (`"3"`, `"1.2"`).
* Python list indexing (which accepts negative indices), `list.index` and
  `list.pop` are modelled by `pyGet`, `pyIndex` and `pyPop` below.
* The grammar module `parsers.py` is imported by the source but is not part
  of this repository's sources; each feed event therefore carries the
  parse tree of its description (`EventPayload`), and a payload of the
  wrong family models a parse failure.  Likewise the roster lookups
  (`blaseball_mike`) are external: the haunter load of `update_batter_up`
  is carried on the event.
-/

/-- Python list indexing `l[i]`: negative indices count from the end,
out-of-range indexing raises (here: `none`). -/
def pyGet (l : List α) (i : Int) : Option α :=
  if 0 ≤ i then l.get? i.toNat
  else if -(l.length : Int) ≤ i then l.get? (l.length - (-i).toNat)
  else none

/-- Python `l.index(x)`: index of the first occurrence, `ValueError`
(here: `none`) if absent. -/
def pyIndex [BEq α] (l : List α) (x : α) : Option Nat :=
  match l with
  | [] => none
  | y :: ys => if y == x then some 0 else (pyIndex ys x).map (· + 1)

/-- Python `l.pop(i)` for a nonnegative index: the list without element
`i`, `IndexError` (here: `none`) if out of range. -/
def pyPop (l : List α) (i : Nat) : Option (List α) :=
  if i < l.length then some (l.eraseIdx i) else none

/-- `PlayerState` from `GameState.py`: id, display name, modifier set and
optional legacy item.  The Python `mods` is a `set`; the embedding keeps a
list, and the only mutation (`mods.remove('COFFEE_RALLY')`) becomes
`List.erase`. -/
structure PlayerState where
  id : String
  name : String
  mods : List String
  legacy_item : Option String
  deriving Repr, DecidableEq

/-- `TeamState`: nickname, pitcher, ordered lineup and the batter index
(−1 before the first at-bat). -/
structure TeamState where
  nickname : String
  pitcher : PlayerState
  lineup : List PlayerState
  batter_index : Int
  deriving Repr, DecidableEq

/-- `TeamState.advance_batter`: increment the index, wrapping to 0 past the
end of the lineup. -/
def TeamState.advance_batter (t : TeamState) : TeamState :=
  let i := t.batter_index + 1
  if i ≥ (t.lineup.length : Int) then { t with batter_index := 0 }
  else { t with batter_index := i }

def PITCHER_MOD_ORDER : List String := ["COFFEE_RALLY"]
def BATTER_MOD_ORDER : List String := ["COFFEE_RALLY"]
def BASERUNNER_MOD_ORDER : List String := ["BLASERUNNING", "COFFEE_RALLY"]

/-- `show_mod_from_list`: the first mod of `mod_list` present on the
player, else the empty string. -/
def show_mod_from_list (mod_list : List String) (player : PlayerState) : String :=
  match mod_list with
  | [] => ""
  | m :: ms => if player.mods.contains m then m else show_mod_from_list ms player

def show_pitcher_mod : PlayerState → String := show_mod_from_list PITCHER_MOD_ORDER
def show_batter_mod : PlayerState → String := show_mod_from_list BATTER_MOD_ORDER
def show_runner_mod : PlayerState → String := show_mod_from_list BASERUNNER_MOD_ORDER

/-- The away/home side used for the `away`/`home` key prefixes of the
document. -/
inductive Side where
  | away
  | home
  deriving Repr, DecidableEq

/-- The per-side fields of the game document (the keys of
`GameState.game_update` that carry an `away`/`home` prefix). -/
structure TeamFields where
  batter : Option String
  batterName : String
  batterMod : String
  pitcher : Option String
  pitcherName : String
  pitcherMod : String
  score : Int
  teamBatterCount : Int
  outs : Int
  strikes : Int
  balls : Int
  bases : Int
  teamName : String
  teamNickname : String
  odds : Int
  team : String
  teamColor : String
  teamEmoji : String
  teamSecondaryColor : String
  deriving Repr, DecidableEq

/-- The game document `GameState.game_update`.  The keys the state machine
can mutate appear as fields (per-side keys grouped in `TeamFields`); the
identity keys that are set once in `__init__` and never written again are
collapsed into `static`. -/
structure GameUpdate where
  away : TeamFields
  home : TeamFields
  phase : Int
  inning : Int
  topOfInning : Bool
  gameStart : Bool
  gameStartPhase : Int
  newInningPhase : Int
  halfInningOuts : Int
  halfInningScore : Int
  topInningScore : Int
  bottomInningScore : Int
  playCount : Nat
  atBatBalls : Int
  atBatStrikes : Int
  baseRunners : List String
  baseRunnerNames : List String
  baseRunnerMods : List String
  basesOccupied : List Int
  baserunnerCount : Int
  lastUpdate : String
  scoreUpdate : String
  finalized : Bool
  gameComplete : Bool
  shame : Bool
  static : String
  deriving Repr, DecidableEq

def GameUpdate.tf (g : GameUpdate) : Side → TeamFields
  | .away => g.away
  | .home => g.home

def GameUpdate.setTF (g : GameUpdate) : Side → TeamFields → GameUpdate
  | .away, t => { g with away := t }
  | .home, t => { g with home := t }

def GameUpdate.modTF (g : GameUpdate) (sd : Side) (f : TeamFields → TeamFields) :
    GameUpdate :=
  g.setTF sd (f (g.tf sd))

/-- The state machine: expectation flags, the per-side reverberation latch
(`none` = unknown, mirroring Python's `None`), the optional haunter, the
two roster `TeamState`s and the running document. -/
structure GameState where
  expects_lets_go : Bool
  expects_play_ball : Bool
  expects_half_inning_start : Bool
  expects_batter_up : Bool
  expects_pitch : Bool
  expects_inning_end : Bool
  expects_game_end : Bool
  reverberate_away : Option Bool
  reverberate_home : Option Bool
  haunter : Option PlayerState
  awayState : TeamState
  homeState : TeamState
  game_update : GameUpdate
  deriving Repr, DecidableEq

def GameState.reverb (s : GameState) : Side → Option Bool
  | .away => s.reverberate_away
  | .home => s.reverberate_home

def GameState.setReverb (s : GameState) : Side → Option Bool → GameState
  | .away, v => { s with reverberate_away := v }
  | .home, v => { s with reverberate_home := v }

/-- `GameState.prefix()`: the batting side. -/
def GameState.curSide (s : GameState) : Side :=
  if s.game_update.topOfInning then .away else .home

/-- `GameState.prefix(negate=True)`: the fielding side. -/
def GameState.oppSide (s : GameState) : Side :=
  if s.game_update.topOfInning then .home else .away

/-- `GameState.top_or_bottom()` picks between `topInningScore` and
`bottomInningScore`; the embedding reads/writes the chosen field through
these two helpers. -/
def GameUpdate.inningScore (g : GameUpdate) : Int :=
  if g.topOfInning then g.topInningScore else g.bottomInningScore

def GameUpdate.setInningScore (g : GameUpdate) (v : Int) : GameUpdate :=
  if g.topOfInning then { g with topInningScore := v }
  else { g with bottomInningScore := v }

def GameState.batting_team (s : GameState) : TeamState :=
  if s.game_update.topOfInning then s.awayState else s.homeState

def GameState.fielding_team (s : GameState) : TeamState :=
  if s.game_update.topOfInning then s.homeState else s.awayState

def GameState.setBattingTeam (s : GameState) (t : TeamState) : GameState :=
  if s.game_update.topOfInning then { s with awayState := t }
  else { s with homeState := t }

def GameState.setFieldingTeam (s : GameState) (t : TeamState) : GameState :=
  if s.game_update.topOfInning then { s with homeState := t }
  else { s with awayState := t }

/-- `GameState.batter()`: the haunter if set, else the lineup slot at
`batter_index` (Python list indexing, so `-1` reads the last slot). -/
def GameState.batter (s : GameState) : Option PlayerState :=
  match s.haunter with
  | some h => some h
  | none =>
    let t := s.batting_team
    pyGet t.lineup t.batter_index

/-! ## Parse trees

`parsers.py` is external to this repository; each feed event carries the
parse tree of its description.  The constructors mirror the tagged trees
the handlers destructure (`parsed.data` / `parsed.children`). -/

/-- A trailing child of a hit/walk/steal/out description: the tags the
handlers test with `parsed_item.data`. -/
inductive Extra where
  | score (name : String) (extras : List Extra)
  | sacrifice (name : String) (extras : List Extra)
  | use_free_refill (name name2 : String)
  | blaserunning (name : String)
  | heating_up (name : String)
  deriving Repr

inductive StealKind where
  | stolen_base
  | caught_stealing
  deriving Repr

inductive HrKind where
  | solo_hr
  | multi_hr (count : Nat)
  deriving Repr

inductive FieldingOutParse where
  | ground_out_full (batterName fielder : String) (scores : List Extra)
  | flyout_full (batterName fielder : String) (scores : List Extra)
  | double_play_full (batterName : String) (scores : List Extra)
  | fielders_choice (runnerOut baseName : String) (scores : List Extra)
      (reachesName : String)
  deriving Repr

inductive MildPitchKind where
  | ball (balls strikes : Int)
  | walk (batterName : String)
  deriving Repr

inductive BlooddrainAction where
  | blooddrain_strike (name : String)
  | otherAction
  deriving Repr

inductive BlooddrainParse where
  | siphon (sipperName sipperName2 sippeeName sipCategory : String)
      (action : BlooddrainAction)
  | nonSiphon
  deriving Repr

/-- The parse tree of an event description, one constructor per parser
family.  `plain` is used for the event kinds whose handlers never invoke a
parser (they only compare the raw description). -/
inductive EventPayload where
  | plain
  | batter_up (inhabiting : Option (String × String))
      (batterName teamNickname : String) (wielding : List String)
  | steal (kind : StealKind) (runnerName baseName : String)
      (extras : List Extra)
  | walk (batterName : String) (rest : List Extra)
  | strikeout (batterName strikeoutType : String)
  | charm_strikeout (charmingName charmedName charmedName2 : String)
      (swings : Int)
  | fielding_out (parse : FieldingOutParse)
  | hit (batterName baseName : String) (rest : List Extra)
  | home_run (batterName : String) (kind : HrKind) (rest : List Extra)
  | mild_pitch (pitcherName : String) (pitch : MildPitchKind)
      (rest : List Extra)
  | blooddrain (parse : BlooddrainParse)
  | coffee_bean (beanPlayerName beanFlavor modPlayerName modName : String)
  deriving Repr

/-- A feed event: the type code, raw description, the parse tree of the
description, and — for `batter_up` hauntings — the externally loaded
haunter (`Player.load_one_at_time` is a roster lookup outside this
repository). -/
structure FeedEvent where
  etype : Nat
  description : String
  payload : EventPayload
  haunterLoad : Option PlayerState
  deriving Repr

def BASE_NUM_FOR_HIT : String → Option Int
  | "Single" => some 0
  | "Double" => some 1
  | "Triple" => some 2
  | "Quadruple" => some 3
  | _ => none

def BASE_NUM_FOR_NAME : String → Option Int
  | "first" => some 0
  | "second" => some 1
  | "third" => some 2
  | "fourth" => some 3
  | _ => none

/-! ## Shared procedures (§4.3) -/

/-- Render a score held in integer tenths the way Python renders the
number: an integral value without a decimal point, otherwise with one
digit after it.  (Scores are never negative.) -/
def tenthsStr (t : Int) : String :=
  if t % 10 = 0 then toString (t / 10)
  else toString (t / 10) ++ "." ++ toString ((t % 10).natAbs)

/-- `_score_runs(runs)`: add `runs` (in tenths) to the batting team's
score, the half-inning score and the top/bottom inning score; returns
`runs`. -/
def scoreRuns (runs : Int) (s : GameState) : GameState × Int :=
  let g := s.game_update
  let g := g.modTF s.curSide (fun t => { t with score := t.score + runs })
  let g := { g with halfInningScore := g.halfInningScore + runs }
  let g := g.setInningScore (g.inningScore + runs)
  ({ s with game_update := g }, runs)

/-- `_record_runs(runs_scored)`: set `scoreUpdate` for a nonzero run
count (the argument is in tenths; Python's `runs_scored == 1` is tenths
`= 10`, and its `f"{runs_scored}"` is `tenthsStr`). -/
def recordRuns (runs_scored : Int) (s : GameState) : GameState :=
  if runs_scored == 10 then
    { s with game_update.scoreUpdate := "1 Run scored!" }
  else if runs_scored != 0 then
    { s with game_update.scoreUpdate :=
      s!"{tenthsStr runs_scored} Runs scored!" }
  else s

/-- `_remove_baserunner_by_index`: pop the entry from all four parallel
arrays and decrement `baserunnerCount`. -/
def removeBaserunnerByIndex (i : Nat) (s : GameState) : Option GameState := do
  let g := s.game_update
  let br ← pyPop g.baseRunners i
  let bn ← pyPop g.baseRunnerNames i
  let bm ← pyPop g.baseRunnerMods i
  let bo ← pyPop g.basesOccupied i
  pure { s with game_update :=
    { g with baseRunners := br, baseRunnerNames := bn, baseRunnerMods := bm,
             basesOccupied := bo, baserunnerCount := g.baserunnerCount - 1 } }

/-- `_score_player(name)`: locate the baserunner by name (first
occurrence), remove them, score 1 run. -/
def scorePlayer (scoringPlayerName : String) (s : GameState) :
    Option (GameState × Int) := do
  let index ← pyIndex s.game_update.baseRunnerNames scoringPlayerName
  let s ← removeBaserunnerByIndex index s
  pure (scoreRuns 10 s)

/-- The renumbering loop of `_player_to_base`, written on the *reversed*
occupancy list: the Python loop walks `reversed(range(len))` carrying
`highest_occupied_base`, bumping every runner at or below it to the base
after it.  Processing the reversed list front-to-back with the same carry
is the same computation. -/
def bumpFrom (highest : Int) : List Int → List Int
  | [] => []
  | b :: bs =>
    let b2 := if b ≤ highest then highest + 1 else b
    b2 :: bumpFrom b2 bs

/-- `_player_to_base(batter, base_num)`: append the player to all four
arrays at `base_num`, then renumber from the highest base down so the
occupancy stays strictly ordered. -/
def playerToBase (batter : PlayerState) (base_num : Int) (s : GameState) :
    GameState :=
  let g := s.game_update
  let g := { g with
    baseRunners := g.baseRunners ++ [batter.id],
    baseRunnerNames := g.baseRunnerNames ++ [batter.name],
    baseRunnerMods := g.baseRunnerMods ++ [show_runner_mod batter],
    basesOccupied := g.basesOccupied ++ [base_num],
    baserunnerCount := g.baserunnerCount + 1 }
  let g := { g with
    basesOccupied := (bumpFrom (-1) g.basesOccupied.reverse).reverse }
  { s with game_update := g }

/-- `_end_atbat`: blank the batting side's batter fields, zero the at-bat
counters, clear the haunter, and expect the next batter. -/
def endAtbat (s : GameState) : GameState :=
  let g := s.game_update
  let g := g.modTF s.curSide (fun t =>
    { t with batter := none, batterName := "", batterMod := "" })
  let g := { g with atBatBalls := 0, atBatStrikes := 0 }
  { s with game_update := g,
           expects_pitch := false, expects_batter_up := true,
           haunter := none }

/-- `_end_game`: zero the inning score totals, phase 7, expect the game
score event. -/
def endGame (s : GameState) : GameState :=
  let g := s.game_update
  let g := { g with topInningScore := 0, bottomInningScore := 0,
                    halfInningScore := 0, phase := 7 }
  { s with game_update := g,
           expects_pitch := false, expects_game_end := true }

/-- `_end_half_inning(for_batter)`: end the at-bat, clear the baserunner
arrays, reset the outs, and route to game end / next half / inning end. -/
def endHalfInning (for_batter : Bool) (s : GameState) : GameState :=
  let s := endAtbat s
  let g := s.game_update
  let g := { g with baseRunners := [], baseRunnerNames := [],
                    baseRunnerMods := [], basesOccupied := [],
                    baserunnerCount := 0, halfInningOuts := 0, phase := 3 }
  let g : GameUpdate := if !g.topOfInning then
      { g with topInningScore := 0, bottomInningScore := 0,
               halfInningScore := 0 }
    else g
  let s := { s with game_update := g }
  let s : GameState := if !for_batter then
      let s := { s with game_update :=
        s.game_update.modTF s.curSide (fun t =>
          { t with teamBatterCount := t.teamBatterCount - 1 }) }
      -- Next time a batter comes up, call the same one
      s.setBattingTeam
        { s.batting_team with batter_index := s.batting_team.batter_index - 1 }
    else s
  let s := { s with expects_batter_up := false }
  if ((8 : Int) ≤ s.game_update.inning : Bool) &&
      ((s.game_update.tf s.curSide).score <
        (s.game_update.tf s.oppSide).score : Bool) then
    endGame s
  else if s.game_update.topOfInning then
    { s with expects_half_inning_start := true }
  else
    { s with expects_inning_end := true }

/-- The unconditional part of `_update_out`: increment `halfInningOuts`,
end the half-inning if the team's outs are reached, else end the at-bat
when the out belongs to the batter. -/
def outAdvance (for_batter : Bool) (s : GameState) : GameState :=
  let s := { s with game_update.halfInningOuts :=
    s.game_update.halfInningOuts + 1 }
  if s.game_update.halfInningOuts ≥ (s.game_update.tf s.curSide).outs then
    endHalfInning for_batter s
  else if for_batter then
    endAtbat s
  else s

/-- `_update_out(game_update, for_batter)`: record the out, then compare
the running team batter count against the snapshot to detect
reverberation (`none` snapshot leaves it unknown). -/
def updateOut (game_update : Option GameUpdate) (for_batter : Bool)
    (s : GameState) : Option GameState :=
  let side := s.curSide
  let s := outAdvance for_batter s
  match game_update with
  | none => some (s.setReverb side none)
  | some g =>
    let tbc_diff := (s.game_update.tf side).teamBatterCount -
      (g.tf side).teamBatterCount
    if tbc_diff ≠ 0 then
      if tbc_diff = 1 then
        let s := s.setReverb side (some true)
        some { s with game_update :=
          s.game_update.modTF side (fun t =>
            { t with teamBatterCount := t.teamBatterCount - 1 }) }
      else none
    else some (s.setReverb side (some false))

/-- `_maybe_advance_baserunners`: with a snapshot of equal occupancy
length, overwrite `basesOccupied` from it (the advancement oracle). -/
def maybeAdvanceBaserunners (game_update : Option GameUpdate)
    (s : GameState) : Option GameState :=
  match game_update with
  | none => some s
  | some g =>
    if s.game_update.basesOccupied.length = g.basesOccupied.length then
      some { s with game_update.basesOccupied := g.basesOccupied }
    else none

/-! ## Event handlers

Each handler mirrors one `update_*` method.  The result pairs the new
running state with the optional override document the handler returns
(`update_play_ball` is the only one that returns one).  The
`EventPayload.as*` extractors model the per-family entry points of the
external grammar module: they hand the handler its family's parse tree
and fail (fatally) on any other description. -/

/-- A Python `assert`: `none` (fatal) when the condition fails. -/
def assertThat (c : Prop) [Decidable c] : Option Unit :=
  if c then some () else none

/-- The runner-mod refresh loop at the end of `_apply_scoring_extras`:
walk `enumerate(baseRunners)` and overwrite `baseRunnerMods[i]` where the
runner id matches (out-of-range write only raises when a match falls past
the end of the mods list, as in Python). -/
def updateRunnerMods (ids mods : List String) (rid nm : String) :
    Option (List String) :=
  match ids, mods with
  | [], ms => some ms
  | i :: is, [] =>
    if i == rid then none else updateRunnerMods is [] rid nm
  | i :: is, m :: ms =>
    (updateRunnerMods is ms rid nm).map
      (fun r => (if i == rid then nm else m) :: r)

/-- `_apply_scoring_extras(parsed_extras)`: each extra must be a
`use_free_refill`; refund one out and consume the refiller's
`COFFEE_RALLY`, refreshing every displayed-mod field that shows it. -/
def applyScoringExtras (parsed_extras : List Extra) (s : GameState) :
    Option GameState :=
  match parsed_extras with
  | [] => some s
  | .use_free_refill parsed_name parsed_name2 :: rest => do
    let _ ← assertThat (parsed_name = parsed_name2)
    -- Free refill can be used by the runner or the scoring player or, if
    -- the stars align, the pitcher
    let b ← s.batter
    let _ ← assertThat (parsed_name = b.name ∨
      parsed_name = s.fielding_team.pitcher.name ∨
      s.game_update.baseRunnerNames.contains parsed_name)
    let s := { s with game_update.halfInningOuts :=
      s.game_update.halfInningOuts - 1 }
    let p := s.fielding_team.pitcher
    if p.name = parsed_name ∧ p.mods.contains "COFFEE_RALLY" then
      let p2 := { p with mods := p.mods.erase "COFFEE_RALLY" }
      let s := s.setFieldingTeam { s.fielding_team with pitcher := p2 }
      let s := { s with game_update :=
        s.game_update.modTF s.oppSide (fun t =>
          { t with pitcherMod := show_pitcher_mod p2 }) }
      applyScoringExtras rest s
    else do
      let refillers : List PlayerState := s.batting_team.lineup.filter (fun p =>
        p.name == parsed_name && p.mods.contains "COFFEE_RALLY")
      -- two players with the same name would be ambiguous
      let _ ← assertThat (refillers.length = 1)
      let refiller ← refillers.head?
      let refiller2 := { refiller with
        mods := refiller.mods.erase "COFFEE_RALLY" }
      let s := s.setBattingTeam { s.batting_team with
        lineup := s.batting_team.lineup.map (fun p =>
          if p.name == parsed_name && p.mods.contains "COFFEE_RALLY"
          then refiller2 else p) }
      let b2 ← s.batter
      let s :=
        if b2.id = refiller.id then
          { s with game_update := s.game_update.modTF s.curSide (fun t =>
            { t with batterMod := show_batter_mod refiller2 }) }
        else s
      let mods2 ← updateRunnerMods s.game_update.baseRunners
        s.game_update.baseRunnerMods refiller.id (show_runner_mod refiller2)
      let s := { s with game_update.baseRunnerMods := mods2 }
      applyScoringExtras rest s
  | _ => none

/-- The loop of `_update_scores`: each child must be a `score` or
`sacrifice`; apply its free-refill extras, then score the named player,
accumulating the run total. -/
def updateScoresGo (parsed_rest : List Extra) (runs : Int) (s : GameState) :
    Option (GameState × Int) :=
  match parsed_rest with
  | [] => some (s, runs)
  | .score name extras :: rest | .sacrifice name extras :: rest => do
    -- Apply extras first so the baserunners arrays are intact
    let s ← applyScoringExtras extras s
    let (s, r) ← scorePlayer name s
    updateScoresGo rest (runs + r) s
  | _ => none

/-- `_update_scores(parsed_rest)`: run the scoring loop, then
`_record_runs` on the total. -/
def updateScores (parsed_rest : List Extra) (s : GameState) :
    Option GameState := do
  let (s, runs_scored) ← updateScoresGo parsed_rest 0 s
  pure (recordRuns runs_scored s)

def EventPayload.asBatterUp (p : EventPayload) :
    Option (Option (String × String) × String × String × List String) :=
  match p with
  | .batter_up inhabiting batterName teamNickname wielding =>
    some (inhabiting, batterName, teamNickname, wielding)
  | _ => none

def EventPayload.asSteal (p : EventPayload) :
    Option (StealKind × String × String × List Extra) :=
  match p with
  | .steal kind runnerName baseName extras =>
    some (kind, runnerName, baseName, extras)
  | _ => none

def EventPayload.asWalkParse (p : EventPayload) :
    Option (String × List Extra) :=
  match p with
  | .walk batterName rest => some (batterName, rest)
  | _ => none

def EventPayload.asStrikeoutParse (p : EventPayload) :
    Option ((String × String) ⊕ (String × String × String × Int)) :=
  match p with
  | .strikeout batterName strikeoutType =>
    some (Sum.inl (batterName, strikeoutType))
  | .charm_strikeout n1 n2 n3 swings => some (Sum.inr (n1, n2, n3, swings))
  | _ => none

def EventPayload.asFieldingOut (p : EventPayload) : Option FieldingOutParse :=
  match p with
  | .fielding_out parse => some parse
  | _ => none

def EventPayload.asHit (p : EventPayload) :
    Option (String × String × List Extra) :=
  match p with
  | .hit batterName baseName rest => some (batterName, baseName, rest)
  | _ => none

def EventPayload.asHomeRun (p : EventPayload) :
    Option (String × HrKind × List Extra) :=
  match p with
  | .home_run batterName kind rest => some (batterName, kind, rest)
  | _ => none

def EventPayload.asMildPitch (p : EventPayload) :
    Option (String × MildPitchKind × List Extra) :=
  match p with
  | .mild_pitch pitcherName pitch rest => some (pitcherName, pitch, rest)
  | _ => none

def EventPayload.asBlooddrain (p : EventPayload) : Option BlooddrainParse :=
  match p with
  | .blooddrain parse => some parse
  | _ => none

def EventPayload.asCoffeeBean (p : EventPayload) :
    Option (String × String × String × String) :=
  match p with
  | .coffee_bean beanPlayerName beanFlavor modPlayerName modName =>
    some (beanPlayerName, beanFlavor, modPlayerName, modName)
  | _ => none

/-- The loop of `_update_count`: find the text option whose rendered
count-description equals the event's, set `lastUpdate` to it; `assert
False` (here: `none`) when no option matches. -/
def updateCountText (ev : FeedEvent) (text_options : List String)
    (s : GameState) : Option (GameState × Option GameUpdate) :=
  match text_options with
  | [] => none
  | text :: rest =>
    let balls := s.game_update.atBatBalls
    let strikes := s.game_update.atBatStrikes
    let description := s!"{text}. {balls}-{strikes}"
    if ev.description = description then
      some ({ s with game_update.lastUpdate := description }, none)
    else updateCountText ev rest s

/-- The removal loop of `update_home_run`: pop the front baserunner
`n` times. -/
def removeFirstBaserunners (n : Nat) (s : GameState) : Option GameState :=
  match n with
  | 0 => some s
  | n + 1 => do
    let s ← removeBaserunnerByIndex 0 s
    removeFirstBaserunners n s

def updateLetsGo (ev : FeedEvent) (_ : Option GameUpdate) (s : GameState) :
    Option (GameState × Option GameUpdate) := do
  let _ ← assertThat (s.expects_lets_go = true)
  let _ ← assertThat (ev.description = "Let's Go!")
  let s := { s with expects_lets_go := false, expects_play_ball := true }
  let g := s.game_update
  let g := { g with lastUpdate := "Let's Go!", gameStart := true, phase := 1 }
  let g := g.modTF .away (fun t =>
    { t with pitcher := some s.awayState.pitcher.id,
             pitcherName := s.awayState.pitcher.name,
             pitcherMod := show_pitcher_mod s.awayState.pitcher,
             teamBatterCount := -1 })
  let g := g.modTF .home (fun t =>
    { t with pitcher := some s.homeState.pitcher.id,
             pitcherName := s.homeState.pitcher.name,
             pitcherMod := show_pitcher_mod s.homeState.pitcher,
             teamBatterCount := -1 })
  pure ({ s with game_update := g }, none)

def updatePlayBall (ev : FeedEvent) (_ : Option GameUpdate) (s : GameState) :
    Option (GameState × Option GameUpdate) := do
  let _ ← assertThat (s.expects_play_ball = true)
  let _ ← assertThat (ev.description = "Play ball!")
  let s := { s with expects_play_ball := false,
                    expects_half_inning_start := true }
  let g := s.game_update
  -- This does double duty: the normal increment for the special game
  -- update, which doesn't get an automatic increment, and an extra
  -- increment which is needed for the stored game update
  let g := { g with phase := 2, inning := -1, lastUpdate := "Play ball!",
                    topOfInning := false, playCount := g.playCount + 1 }
  -- Return a modified game update rather than reversing the stored one
  let special := { g with
    away := { g.away with pitcher := none, pitcherName := "",
                          pitcherMod := "" },
    home := { g.home with pitcher := none, pitcherName := "",
                          pitcherMod := "", teamBatterCount := -1 } }
  pure ({ s with game_update := g }, some special)

def updateHalfInningStart (ev : FeedEvent) (_ : Option GameUpdate)
    (s : GameState) : Option (GameState × Option GameUpdate) := do
  let _ ← assertThat (s.expects_half_inning_start = true)
  let g := s.game_update
  let g := { g with phase := 6 }
  let g : GameUpdate :=
    if !g.topOfInning then
      let g := if g.inning = -1 then { g with gameStartPhase := 10 }
        else { g with gameStartPhase := g.gameStartPhase + 1 }
      { g with inning := g.inning + 1 }
    else g
  let g := { g with topOfInning := !g.topOfInning }
  let g := { g with halfInningScore := 0 }
  let s := { s with game_update := g }
  let top_or_bottom := if g.topOfInning then "Top" else "Bottom"
  let inning := g.inning + 1
  let team_name := (g.tf s.curSide).teamName
  let description := s!"{top_or_bottom} of {inning}, {team_name} batting."
  let _ ← assertThat (ev.description = description)
  let s := { s with game_update.lastUpdate := description }
  pure ({ s with expects_half_inning_start := false,
                 expects_batter_up := true }, none)

def updateBatterUp (ev : FeedEvent) (_ : Option GameUpdate) (s : GameState) :
    Option (GameState × Option GameUpdate) := do
  let _ ← assertThat (s.expects_batter_up = true)
  let (inhabiting, parsed_batter_name, parsed_team_name, parsed_rest) ←
    ev.payload.asBatterUp
  let s :=
    if s.reverb s.curSide ≠ some true then
      s.setBattingTeam s.batting_team.advance_batter
    else s
  let s ← (match inhabiting with
    | some (haunter_name, haunted_name) => do
      let haunter ← ev.haunterLoad
      let _ ← assertThat (haunter_name = haunter.name)
      let b0 ← s.batter
      let _ ← assertThat (haunted_name = b0.name)
      pure { s with haunter := some haunter }
    | none => pure s)
  let batter ← s.batter
  let _ ← assertThat (s.batting_team.nickname = parsed_team_name)
  let _ ← assertThat (batter.name = parsed_batter_name)
  let _ ← assertThat (parsed_rest.all
    (fun parsed_bat => some parsed_bat == batter.legacy_item))
  let g := s.game_update.modTF s.curSide (fun t =>
    { t with batter := some batter.id, batterName := batter.name,
             batterMod := show_batter_mod batter })
  let g := { g with lastUpdate := ev.description }
  let g := g.modTF s.curSide (fun t =>
    { t with teamBatterCount := t.teamBatterCount + 1 })
  pure ({ s with game_update := g,
                 expects_batter_up := false, expects_pitch := true }, none)

/-- The tail of the `stolen_base` branch of `update_base_steal`: consume
the `use_free_refill` extras when a score made them expected, otherwise
insist there are none. -/
def stolenBaseFinish (parsed_extras : List Extra) (expects_extras : Bool)
    (runs_scored : Int) (s : GameState) : Option (GameState × Int) :=
  if expects_extras then do
    let s ← applyScoringExtras parsed_extras s
    pure (s, runs_scored)
  else do
    let _ ← assertThat (parsed_extras.length = 0)
    pure (s, runs_scored)

/-- The scoring check of the `stolen_base` branch: a steal of base
`teamBases − 1` scores the stealer (and makes extras expected). -/
def stolenBaseScore (stealer_name : String) (base_stolen : Int)
    (parsed_extras : List Extra) (expects_extras : Bool) (runs_scored : Int)
    (s : GameState) : Option (GameState × Int) :=
  if base_stolen + 1 = (s.game_update.tf s.curSide).bases then do
    let (s, r) ← scorePlayer stealer_name s
    stolenBaseFinish parsed_extras true (runs_scored + r) s
  else stolenBaseFinish parsed_extras expects_extras runs_scored s

def updateBaseSteal (ev : FeedEvent) (game_update : Option GameUpdate)
    (s : GameState) : Option (GameState × Option GameUpdate) := do
  let _ ← assertThat (s.expects_pitch = true)
  let (kind, stealer_name, base_name, parsed_extras) ← ev.payload.asSteal
  let base_stolen ← BASE_NUM_FOR_NAME base_name
  -- Find the baserunner who is one before the base they tried to steal
  let stealer_idx ← pyIndex s.game_update.basesOccupied (base_stolen - 1)
  let named ← s.game_update.baseRunnerNames.get? stealer_idx
  let _ ← assertThat (named = stealer_name)
  let (s, runs_scored) ← (match kind with
    | .stolen_base => do
      -- Must do this before advancing baserunners or the indices are off
      let occupied ← s.game_update.basesOccupied.get? stealer_idx
      let s := { s with game_update.basesOccupied :=
        s.game_update.basesOccupied.set stealer_idx (occupied + 1) }
      match parsed_extras with
      | .blaserunning parsed_blaserunner_name :: rest => do
        let _ ← assertThat (stealer_name = parsed_blaserunner_name)
        -- 0.2 of a run, i.e. 2 tenths
        let (s, r) := scoreRuns 2 s
        stolenBaseScore stealer_name base_stolen rest true r s
      | _ => stolenBaseScore stealer_name base_stolen parsed_extras false 0 s
    | .caught_stealing => do
      let s ← removeBaserunnerByIndex stealer_idx s
      let s ← updateOut game_update false s
      pure (s, (0 : Int)))
  let s := recordRuns runs_scored s
  pure ({ s with game_update.lastUpdate := ev.description }, none)

/-- `_update_walk_generic(batter)`: put the batter on first, end the
at-bat. -/
def updateWalkGeneric (batter : PlayerState) (s : GameState) : GameState :=
  endAtbat (playerToBase batter 0 s)

def updateWalk (ev : FeedEvent) (_ : Option GameUpdate) (s : GameState) :
    Option (GameState × Option GameUpdate) := do
  let _ ← assertThat (s.expects_pitch = true)
  let (parsed_walker_name, parsed_rest) ← ev.payload.asWalkParse
  let batter ← s.batter
  let _ ← assertThat (parsed_walker_name = batter.name)
  let s := updateWalkGeneric batter s
  let s ← updateScores parsed_rest s
  pure ({ s with game_update.lastUpdate := ev.description }, none)

def updateStrikeout (ev : FeedEvent) (game_update : Option GameUpdate)
    (s : GameState) : Option (GameState × Option GameUpdate) := do
  let _ ← assertThat (s.expects_pitch = true)
  let parsed ← ev.payload.asStrikeoutParse
  let batter ← s.batter
  let s ← (match parsed with
    | .inl (parsed_name, _strikeoutType) => do
      let _ ← assertThat (batter.name = parsed_name)
      -- They have to be 1 strike away from an out
      let _ ← assertThat (s.game_update.atBatStrikes + 1 =
        (s.game_update.tf s.curSide).strikes)
      pure s
    | .inr (charming, charmed, charmed2, parsed_swings) => do
      let _ ← assertThat (charming = s.fielding_team.pitcher.name)
      let _ ← assertThat (charmed = batter.name)
      let _ ← assertThat (charmed2 = batter.name)
      -- They should have taken as many swings as they get strikes
      let _ ← assertThat (parsed_swings =
        (s.game_update.tf s.curSide).strikes)
      pure s)
  let s := { s with game_update.lastUpdate := ev.description }
  let s ← updateOut game_update true s
  pure (s, none)

/-- The common tail of `_update_fielding_out` after the per-shape
processing: check the batter's name, apply the trailing scores, record the
out and consult the advancement oracle. -/
def fieldingOutFinish (ev : FeedEvent) (game_update : Option GameUpdate)
    (batter : PlayerState) (batter_name : String)
    (parsed_scores : List Extra) (s : GameState) :
    Option (GameState × Option GameUpdate) := do
  let _ ← assertThat (batter_name = batter.name)
  let s ← updateScores parsed_scores s
  let s := { s with game_update.lastUpdate := ev.description }
  let s ← updateOut game_update true s
  -- This must be last or it errors when this event ends the half-inning
  let s ← maybeAdvanceBaserunners game_update s
  pure (s, none)

def updateFieldingOut (ev : FeedEvent) (game_update : Option GameUpdate)
    (s : GameState) : Option (GameState × Option GameUpdate) := do
  let _ ← assertThat (s.expects_pitch = true)
  let parse ← ev.payload.asFieldingOut
  let batter ← s.batter
  match parse with
  | .ground_out_full batter_name fielder parsed_scores
  | .flyout_full batter_name fielder parsed_scores => do
    let _ ← assertThat (s.fielding_team.lineup.any
      (fun defender => fielder == defender.name))
    fieldingOutFinish ev game_update batter batter_name parsed_scores s
  | .double_play_full batter_name parsed_scores => do
    -- The first out of a double play can't be the out that ends the
    -- inning... right?
    let s := { s with game_update.halfInningOuts :=
      s.game_update.halfInningOuts + 1 }
    let _ ← assertThat (s.game_update.halfInningOuts <
      (s.game_update.tf s.curSide).outs)
    -- Need to update scoring players early so we can tell who got out
    let s ← updateScores parsed_scores s
    -- Only remove a runner if the inning isn't ending; if it is, the
    -- baserunners are cleared from the game_update
    let s ← (if ¬(s.game_update.halfInningOuts + 1 ≥
        (s.game_update.tf s.curSide).outs) then do
      let g ← game_update
      let set_diff := (s.game_update.baseRunners.filter
        (fun x => !g.baseRunners.contains x)).dedup
      match set_diff with
      | [out_id] => do
        let out_i ← pyIndex s.game_update.baseRunners out_id
        removeBaserunnerByIndex out_i s
      | _ => none
    else pure s)
    fieldingOutFinish ev game_update batter batter_name [] s
  | .fielders_choice runner_out _base_name parsed_scores batter_name => do
    -- This will break when the same runner is on base multiple times
    let runner_i ← pyIndex s.game_update.baseRunnerNames runner_out
    let s ← removeBaserunnerByIndex runner_i s
    -- Where the batter ends up is left to the advancement correction
    let s := playerToBase batter 0 s
    fieldingOutFinish ev game_update batter batter_name parsed_scores s

def updateFlyout : FeedEvent → Option GameUpdate → GameState →
    Option (GameState × Option GameUpdate) := updateFieldingOut

def updateGroundOut : FeedEvent → Option GameUpdate → GameState →
    Option (GameState × Option GameUpdate) := updateFieldingOut

def updateBall (ev : FeedEvent) (_ : Option GameUpdate) (s : GameState) :
    Option (GameState × Option GameUpdate) := do
  let _ ← assertThat (s.expects_pitch = true)
  let s := { s with game_update.atBatBalls := s.game_update.atBatBalls + 1 }
  updateCountText ev ["Ball"] s

def updateFoulBall (ev : FeedEvent) (_ : Option GameUpdate) (s : GameState) :
    Option (GameState × Option GameUpdate) := do
  let _ ← assertThat (s.expects_pitch = true)
  let s :=
    if s.game_update.atBatStrikes + 1 <
        (s.game_update.tf s.curSide).strikes then
      { s with game_update.atBatStrikes := s.game_update.atBatStrikes + 1 }
    else s
  updateCountText ev ["Foul Ball"] s

def updateStrike (ev : FeedEvent) (_ : Option GameUpdate) (s : GameState) :
    Option (GameState × Option GameUpdate) := do
  let _ ← assertThat (s.expects_pitch = true)
  let s := { s with game_update.atBatStrikes :=
    s.game_update.atBatStrikes + 1 }
  updateCountText ev ["Strike, swinging", "Strike, looking",
                      "Strike, flinching"] s

def updateStrikeZapped (ev : FeedEvent) (_ : Option GameUpdate)
    (s : GameState) : Option (GameState × Option GameUpdate) := do
  let _ ← assertThat (s.expects_pitch = true)
  let description := "The Electricity zaps a strike away!"
  let _ ← assertThat (ev.description = description)
  let s := { s with game_update.lastUpdate := description }
  let _ ← assertThat (s.game_update.atBatStrikes > 0)
  let s := { s with game_update.atBatStrikes :=
    s.game_update.atBatStrikes - 1 }
  pure (s, none)

def updateMildPitch (ev : FeedEvent) (_ : Option GameUpdate)
    (s : GameState) : Option (GameState × Option GameUpdate) := do
  let _ ← assertThat (s.expects_pitch = true)
  let (mild_pitcher_name, parsed_pitch, parsed_rest) ←
    ev.payload.asMildPitch
  let _ ← assertThat (mild_pitcher_name = s.fielding_team.pitcher.name)
  let s ← (match parsed_pitch with
    | .ball parsed_balls parsed_strikes => do
      let s := { s with game_update.atBatBalls :=
        s.game_update.atBatBalls + 1 }
      let _ ← assertThat (s.game_update.atBatBalls = parsed_balls)
      let _ ← assertThat (s.game_update.atBatStrikes = parsed_strikes)
      pure s
    | .walk parsed_walker => do
      let batter ← s.batter
      let _ ← assertThat (parsed_walker = batter.name)
      pure (updateWalkGeneric batter s))
  -- Everything else should be a score
  let s ← updateScores parsed_rest s
  pure ({ s with game_update.lastUpdate := ev.description }, none)

def updateHomeRun (ev : FeedEvent) (_ : Option GameUpdate) (s : GameState) :
    Option (GameState × Option GameUpdate) := do
  let _ ← assertThat (s.expects_pitch = true)
  let (_batter_name, parsed_hr_type, parsed_rest) ← ev.payload.asHomeRun
  let num_scores : Nat := match parsed_hr_type with
    | .solo_hr => 1
    | .multi_hr n => n
  let s ← applyScoringExtras parsed_rest s
  -- Remove baserunners after applying scoring extras so it knows who
  -- the baserunners were
  let s ← removeFirstBaserunners (num_scores - 1) s
  -- Home runs should clear the bases
  let _ ← assertThat (s.game_update.baseRunners.length = 0)
  let s := { s with game_update.lastUpdate := ev.description }
  let (s, _) := scoreRuns (10 * (num_scores : Int)) s
  let s := recordRuns (10 * (num_scores : Int)) s
  pure (endAtbat s, none)

def updateHit (ev : FeedEvent) (game_update : Option GameUpdate)
    (s : GameState) : Option (GameState × Option GameUpdate) := do
  let _ ← assertThat (s.expects_pitch = true)
  let (batter_name, base_name, parsed_rest) ← ev.payload.asHit
  let parsed_rest ← (match parsed_rest with
    | .heating_up heating_up_name :: rest => do
      let _ ← assertThat (heating_up_name = batter_name)
      pure rest
    | other => pure other)
  let batter ← s.batter
  let _ ← assertThat (batter_name = batter.name)
  let s ← updateScores parsed_rest s
  let s := { s with game_update.lastUpdate := ev.description }
  let base_num ← BASE_NUM_FOR_HIT base_name
  let s := playerToBase batter base_num s
  let s := endAtbat s
  -- This must be last or it errors when this event ends the half-inning
  let s ← maybeAdvanceBaserunners game_update s
  pure (s, none)

def updateGameScore (ev : FeedEvent) (_ : Option GameUpdate)
    (s : GameState) : Option (GameState × Option GameUpdate) := do
  let _ ← assertThat (s.expects_game_end = true)
  let awayScore := s.game_update.away.score
  let homeScore := s.game_update.home.score
  let awayScoreStr := tenthsStr awayScore
  let homeScoreStr := tenthsStr homeScore
  let away_text := s!"{s.awayState.nickname} {awayScoreStr}"
  let home_text := s!"{s.homeState.nickname} {homeScoreStr}"
  let description :=
    if homeScore > awayScore then s!"{home_text}, {away_text}"
    else s!"{away_text}, {home_text}"
  let _ ← assertThat (description = ev.description)
  let s := { s with game_update.lastUpdate := description }
  pure ({ s with game_update.finalized := true,
                 game_update.gameComplete := true }, none)

def updateBlooddrain (ev : FeedEvent) (_ : Option GameUpdate)
    (s : GameState) : Option (GameState × Option GameUpdate) := do
  let _ ← assertThat (s.expects_pitch = true)  -- we'll see if this holds
  let parse ← ev.payload.asBlooddrain
  match parse with
  | .siphon sipper_name sipper_name2 _sippee_name _sip_category action => do
    let _ ← assertThat (sipper_name = sipper_name2)
    match action with
    | .blooddrain_strike sipper_name3 => do
      let _ ← assertThat (sipper_name = sipper_name3)
      let s := { s with game_update.atBatStrikes :=
        s.game_update.atBatStrikes + 1 }
      -- This can't be the strike that ends the inning... right?
      let _ ← assertThat (s.game_update.atBatStrikes <
        (s.game_update.tf s.curSide).strikes)
      pure ({ s with game_update.lastUpdate := ev.description }, none)
    | .otherAction => none  -- other blooddrain actions are TODO
  | .nonSiphon => none  -- non-siphon blooddrains are TODO

def updateInningEnd (ev : FeedEvent) (_ : Option GameUpdate)
    (s : GameState) : Option (GameState × Option GameUpdate) := do
  let _ ← assertThat (s.expects_inning_end = true)
  let inning := s.game_update.inning + 1
  let description := s!"Inning {inning} is now an Outing."
  let _ ← assertThat (ev.description = description)
  let s := { s with game_update.lastUpdate := description,
                    game_update.phase := 2 }
  pure ({ s with expects_inning_end := false,
                 expects_half_inning_start := true }, none)

def updateNoStateChangePitch (ev : FeedEvent) (_ : Option GameUpdate)
    (s : GameState) : Option (GameState × Option GameUpdate) := do
  let _ ← assertThat (s.expects_pitch = true)
  -- There is nothing to do but copy over the description
  pure ({ s with game_update.lastUpdate := ev.description }, none)

def updateNoStateChangeBatterUp (ev : FeedEvent) (_ : Option GameUpdate)
    (s : GameState) : Option (GameState × Option GameUpdate) := do
  let _ ← assertThat (s.expects_batter_up = true)
  -- There is nothing to do but copy over the description
  pure ({ s with game_update.lastUpdate := ev.description }, none)

def updateCoffeeBean (ev : FeedEvent) (_ : Option GameUpdate)
    (s : GameState) : Option (GameState × Option GameUpdate) := do
  let _ ← assertThat (s.expects_pitch = true)  -- we'll see if this holds
  let (bean_player_name, _bean_flavor, mod_player_name, _mod_name) ←
    ev.payload.asCoffeeBean
  let _ ← assertThat (bean_player_name = mod_player_name)
  -- the source handler ends in `pass`: nothing is written back
  pure (s, none)

/-! ## Dispatch and driver -/

/-- The dispatch table `GameState.update_type`, keyed by the feed event's
integer type code; an unknown code is fatal. -/
def step (ev : FeedEvent) (game_update : Option GameUpdate) (s : GameState) :
    Option (GameState × Option GameUpdate) :=
  match ev.etype with
  | 0 => updateLetsGo ev game_update s
  | 1 => updatePlayBall ev game_update s
  | 2 => updateHalfInningStart ev game_update s
  | 4 => updateBaseSteal ev game_update s
  | 5 => updateWalk ev game_update s
  | 6 => updateStrikeout ev game_update s
  | 7 => updateFlyout ev game_update s
  | 8 => updateGroundOut ev game_update s
  | 9 => updateHomeRun ev game_update s
  | 10 => updateHit ev game_update s
  | 11 => updateGameScore ev game_update s
  | 12 => updateBatterUp ev game_update s
  | 13 => updateStrike ev game_update s
  | 14 => updateBall ev game_update s
  | 15 => updateFoulBall ev game_update s
  | 25 => updateStrikeZapped ev game_update s
  | 27 => updateMildPitch ev game_update s
  | 28 => updateInningEnd ev game_update s
  | 39 => updateCoffeeBean ev game_update s
  | 52 => updateBlooddrain ev game_update s
  | 73 => updateNoStateChangePitch ev game_update s
  | 92 => updateNoStateChangeBatterUp ev game_update s
  | _ => none

/-- `GameState.update`: clear `scoreUpdate`, dispatch, and unless the
handler returned an override document, increment `playCount` and emit the
running document. -/
def update (ev : FeedEvent) (game_update : Option GameUpdate)
    (s : GameState) : Option (GameState × GameUpdate) := do
  -- Always reset this, since scores are rare
  let s := { s with game_update.scoreUpdate := "" }
  let (s, returned) ← step ev game_update s
  match returned with
  | some doc => pure (s, doc)
  | none =>
    let s := { s with game_update.playCount := s.game_update.playCount + 1 }
    pure (s, s.game_update)

/-! ## Infrastructure lemmas

`Frame s s2` bundles the two frame facts the global theorems walk through
every handler: the handler body leaves `playCount` alone, and it keeps the
four baserunner arrays parallel (`BRInv`). -/

/-- Property 2 of the spec: the four baserunner arrays are parallel and
`baserunnerCount` is their common length. -/
def BRInv (g : GameUpdate) : Prop :=
  g.baseRunnerNames.length = g.baseRunners.length ∧
  g.baseRunnerMods.length = g.baseRunners.length ∧
  g.basesOccupied.length = g.baseRunners.length ∧
  g.baserunnerCount = (g.baseRunners.length : Int)

def Frame (s s2 : GameState) : Prop :=
  s2.game_update.playCount = s.game_update.playCount ∧
  (BRInv s.game_update → BRInv s2.game_update)

theorem Frame.refl (s : GameState) : Frame s s := ⟨rfl, id⟩

theorem Frame.trans {s1 s2 s3 : GameState} (h1 : Frame s1 s2)
    (h2 : Frame s2 s3) : Frame s1 s3 :=
  ⟨h2.1.trans h1.1, fun h => h2.2 (h1.2 h)⟩

@[simp] theorem modTF_playCount (g : GameUpdate) (sd : Side)
    (f : TeamFields → TeamFields) : (g.modTF sd f).playCount = g.playCount := by
  cases sd <;> rfl

@[simp] theorem modTF_baseRunners (g : GameUpdate) (sd : Side)
    (f : TeamFields → TeamFields) :
    (g.modTF sd f).baseRunners = g.baseRunners := by
  cases sd <;> rfl

@[simp] theorem modTF_baseRunnerNames (g : GameUpdate) (sd : Side)
    (f : TeamFields → TeamFields) :
    (g.modTF sd f).baseRunnerNames = g.baseRunnerNames := by
  cases sd <;> rfl

@[simp] theorem modTF_baseRunnerMods (g : GameUpdate) (sd : Side)
    (f : TeamFields → TeamFields) :
    (g.modTF sd f).baseRunnerMods = g.baseRunnerMods := by
  cases sd <;> rfl

@[simp] theorem modTF_basesOccupied (g : GameUpdate) (sd : Side)
    (f : TeamFields → TeamFields) :
    (g.modTF sd f).basesOccupied = g.basesOccupied := by
  cases sd <;> rfl

@[simp] theorem modTF_baserunnerCount (g : GameUpdate) (sd : Side)
    (f : TeamFields → TeamFields) :
    (g.modTF sd f).baserunnerCount = g.baserunnerCount := by
  cases sd <;> rfl

@[simp] theorem modTF_halfInningOuts (g : GameUpdate) (sd : Side)
    (f : TeamFields → TeamFields) :
    (g.modTF sd f).halfInningOuts = g.halfInningOuts := by
  cases sd <;> rfl

@[simp] theorem modTF_topOfInning (g : GameUpdate) (sd : Side)
    (f : TeamFields → TeamFields) :
    (g.modTF sd f).topOfInning = g.topOfInning := by
  cases sd <;> rfl

@[simp] theorem setInningScore_playCount (g : GameUpdate) (v : Int) :
    (g.setInningScore v).playCount = g.playCount := by
  unfold GameUpdate.setInningScore; split <;> rfl

@[simp] theorem setInningScore_baseRunners (g : GameUpdate) (v : Int) :
    (g.setInningScore v).baseRunners = g.baseRunners := by
  unfold GameUpdate.setInningScore; split <;> rfl

@[simp] theorem setInningScore_baseRunnerNames (g : GameUpdate) (v : Int) :
    (g.setInningScore v).baseRunnerNames = g.baseRunnerNames := by
  unfold GameUpdate.setInningScore; split <;> rfl

@[simp] theorem setInningScore_baseRunnerMods (g : GameUpdate) (v : Int) :
    (g.setInningScore v).baseRunnerMods = g.baseRunnerMods := by
  unfold GameUpdate.setInningScore; split <;> rfl

@[simp] theorem setInningScore_basesOccupied (g : GameUpdate) (v : Int) :
    (g.setInningScore v).basesOccupied = g.basesOccupied := by
  unfold GameUpdate.setInningScore; split <;> rfl

@[simp] theorem setInningScore_baserunnerCount (g : GameUpdate) (v : Int) :
    (g.setInningScore v).baserunnerCount = g.baserunnerCount := by
  unfold GameUpdate.setInningScore; split <;> rfl

@[simp] theorem setInningScore_halfInningOuts (g : GameUpdate) (v : Int) :
    (g.setInningScore v).halfInningOuts = g.halfInningOuts := by
  unfold GameUpdate.setInningScore; split <;> rfl

@[simp] theorem setReverb_game_update (s : GameState) (sd : Side)
    (v : Option Bool) : (s.setReverb sd v).game_update = s.game_update := by
  cases sd <;> rfl

@[simp] theorem setBattingTeam_game_update (s : GameState) (t : TeamState) :
    (s.setBattingTeam t).game_update = s.game_update := by
  unfold GameState.setBattingTeam; split <;> rfl

@[simp] theorem setFieldingTeam_game_update (s : GameState) (t : TeamState) :
    (s.setFieldingTeam t).game_update = s.game_update := by
  unfold GameState.setFieldingTeam; split <;> rfl

@[simp] theorem BRInv_modTF (g : GameUpdate) (sd : Side)
    (f : TeamFields → TeamFields) : BRInv (g.modTF sd f) ↔ BRInv g := by
  simp [BRInv]

theorem Frame.of_game_update_eqs {s s2 : GameState}
    (hp : s2.game_update.playCount = s.game_update.playCount)
    (h1 : s2.game_update.baseRunners = s.game_update.baseRunners)
    (h2 : s2.game_update.baseRunnerNames = s.game_update.baseRunnerNames)
    (h3 : s2.game_update.baseRunnerMods = s.game_update.baseRunnerMods)
    (h4 : s2.game_update.basesOccupied = s.game_update.basesOccupied)
    (h5 : s2.game_update.baserunnerCount = s.game_update.baserunnerCount) :
    Frame s s2 := by
  refine ⟨hp, fun h => ?_⟩
  unfold BRInv at h ⊢
  rw [h1, h2, h3, h4, h5]
  exact h

theorem Frame.of_game_update_lens {s s2 : GameState}
    (hp : s2.game_update.playCount = s.game_update.playCount)
    (h1 : s2.game_update.baseRunners.length = s.game_update.baseRunners.length)
    (h2 : s2.game_update.baseRunnerNames.length =
      s.game_update.baseRunnerNames.length)
    (h3 : s2.game_update.baseRunnerMods.length =
      s.game_update.baseRunnerMods.length)
    (h4 : s2.game_update.basesOccupied.length =
      s.game_update.basesOccupied.length)
    (h5 : s2.game_update.baserunnerCount = s.game_update.baserunnerCount) :
    Frame s s2 := by
  refine ⟨hp, fun h => ?_⟩
  obtain ⟨i1, i2, i3, i4⟩ := h
  exact ⟨by omega, by omega, by omega, by omega⟩

@[simp] theorem assertThat_eq_some {c : Prop} [Decidable c] {u : Unit} :
    assertThat c = some u ↔ c := by
  unfold assertThat; split <;> simp [*]

@[simp] theorem assertThat_isSome {c : Prop} [Decidable c] :
    (assertThat c).isSome = true ↔ c := by
  unfold assertThat; split <;> simp [*]

theorem frame_scoreRuns (r : Int) (s : GameState) : Frame s (scoreRuns r s).1 := by
  apply Frame.of_game_update_eqs <;> simp [scoreRuns]

theorem frame_recordRuns (r : Int) (s : GameState) : Frame s (recordRuns r s) := by
  unfold recordRuns
  split
  · exact Frame.of_game_update_eqs rfl rfl rfl rfl rfl rfl
  · split
    · exact Frame.of_game_update_eqs rfl rfl rfl rfl rfl rfl
    · exact Frame.refl s

@[simp] theorem endAtbat_playCount (s : GameState) :
    (endAtbat s).game_update.playCount = s.game_update.playCount := by
  simp [endAtbat]

@[simp] theorem endAtbat_baseRunners (s : GameState) :
    (endAtbat s).game_update.baseRunners = s.game_update.baseRunners := by
  simp [endAtbat]

@[simp] theorem endAtbat_baseRunnerNames (s : GameState) :
    (endAtbat s).game_update.baseRunnerNames = s.game_update.baseRunnerNames := by
  simp [endAtbat]

@[simp] theorem endAtbat_baseRunnerMods (s : GameState) :
    (endAtbat s).game_update.baseRunnerMods = s.game_update.baseRunnerMods := by
  simp [endAtbat]

@[simp] theorem endAtbat_basesOccupied (s : GameState) :
    (endAtbat s).game_update.basesOccupied = s.game_update.basesOccupied := by
  simp [endAtbat]

@[simp] theorem endAtbat_baserunnerCount (s : GameState) :
    (endAtbat s).game_update.baserunnerCount = s.game_update.baserunnerCount := by
  simp [endAtbat]

@[simp] theorem endAtbat_halfInningOuts (s : GameState) :
    (endAtbat s).game_update.halfInningOuts = s.game_update.halfInningOuts := by
  simp [endAtbat]

@[simp] theorem endAtbat_topOfInning (s : GameState) :
    (endAtbat s).game_update.topOfInning = s.game_update.topOfInning := by
  simp [endAtbat]

theorem frame_endAtbat (s : GameState) : Frame s (endAtbat s) := by
  apply Frame.of_game_update_eqs <;> simp

@[simp] theorem endGame_playCount (s : GameState) :
    (endGame s).game_update.playCount = s.game_update.playCount := rfl

@[simp] theorem endGame_baseRunners (s : GameState) :
    (endGame s).game_update.baseRunners = s.game_update.baseRunners := rfl

@[simp] theorem endGame_baseRunnerNames (s : GameState) :
    (endGame s).game_update.baseRunnerNames = s.game_update.baseRunnerNames := rfl

@[simp] theorem endGame_baseRunnerMods (s : GameState) :
    (endGame s).game_update.baseRunnerMods = s.game_update.baseRunnerMods := rfl

@[simp] theorem endGame_basesOccupied (s : GameState) :
    (endGame s).game_update.basesOccupied = s.game_update.basesOccupied := rfl

@[simp] theorem endGame_baserunnerCount (s : GameState) :
    (endGame s).game_update.baserunnerCount = s.game_update.baserunnerCount := rfl

@[simp] theorem endGame_halfInningOuts (s : GameState) :
    (endGame s).game_update.halfInningOuts = s.game_update.halfInningOuts := rfl

@[simp] theorem endHalfInning_playCount (fb : Bool) (s : GameState) :
    (endHalfInning fb s).game_update.playCount = s.game_update.playCount := by
  unfold endHalfInning
  dsimp only
  split <;> split <;> split <;> (try split) <;> simp

@[simp] theorem endHalfInning_baseRunners (fb : Bool) (s : GameState) :
    (endHalfInning fb s).game_update.baseRunners = [] := by
  unfold endHalfInning
  dsimp only
  split <;> split <;> split <;> (try split) <;> simp

@[simp] theorem endHalfInning_baseRunnerNames (fb : Bool) (s : GameState) :
    (endHalfInning fb s).game_update.baseRunnerNames = [] := by
  unfold endHalfInning
  dsimp only
  split <;> split <;> split <;> (try split) <;> simp

@[simp] theorem endHalfInning_baseRunnerMods (fb : Bool) (s : GameState) :
    (endHalfInning fb s).game_update.baseRunnerMods = [] := by
  unfold endHalfInning
  dsimp only
  split <;> split <;> split <;> (try split) <;> simp

@[simp] theorem endHalfInning_basesOccupied (fb : Bool) (s : GameState) :
    (endHalfInning fb s).game_update.basesOccupied = [] := by
  unfold endHalfInning
  dsimp only
  split <;> split <;> split <;> (try split) <;> simp

@[simp] theorem endHalfInning_baserunnerCount (fb : Bool) (s : GameState) :
    (endHalfInning fb s).game_update.baserunnerCount = 0 := by
  unfold endHalfInning
  dsimp only
  split <;> split <;> split <;> (try split) <;> simp

@[simp] theorem endHalfInning_halfInningOuts (fb : Bool) (s : GameState) :
    (endHalfInning fb s).game_update.halfInningOuts = 0 := by
  unfold endHalfInning
  dsimp only
  split <;> split <;> split <;> (try split) <;> simp

theorem frame_endHalfInning (fb : Bool) (s : GameState) :
    Frame s (endHalfInning fb s) := by
  refine ⟨by simp, fun _ => ?_⟩
  unfold BRInv
  simp

theorem frame_outAdvance (fb : Bool) (s : GameState) :
    Frame s (outAdvance fb s) := by
  unfold outAdvance
  dsimp only
  split
  · exact Frame.trans (Frame.of_game_update_eqs rfl rfl rfl rfl rfl rfl)
      (frame_endHalfInning _ _)
  · split
    · exact Frame.trans (Frame.of_game_update_eqs rfl rfl rfl rfl rfl rfl)
        (frame_endAtbat _)
    · exact Frame.of_game_update_eqs rfl rfl rfl rfl rfl rfl

theorem frame_updateOut {snap : Option GameUpdate} {fb : Bool}
    {s s2 : GameState} (h : updateOut snap fb s = some s2) : Frame s s2 := by
  unfold updateOut at h
  dsimp only at h
  have base := frame_outAdvance fb s
  split at h
  · injection h with h
    subst h
    exact Frame.trans base (Frame.of_game_update_eqs (by simp) (by simp)
      (by simp) (by simp) (by simp) (by simp))
  · split at h
    · split at h
      · injection h with h
        subst h
        refine Frame.trans base (Frame.of_game_update_eqs ?_ ?_ ?_ ?_ ?_ ?_)
          <;> simp
      · exact absurd h (by simp)
    · injection h with h
      subst h
      exact Frame.trans base (Frame.of_game_update_eqs (by simp) (by simp)
        (by simp) (by simp) (by simp) (by simp))

theorem frame_maybeAdvanceBaserunners {snap : Option GameUpdate}
    {s s2 : GameState} (h : maybeAdvanceBaserunners snap s = some s2) :
    Frame s s2 := by
  unfold maybeAdvanceBaserunners at h
  split at h
  · injection h with h
    subst h
    exact Frame.refl s
  · split at h
    · injection h with h
      subst h
      refine ⟨rfl, fun hb => ?_⟩
      unfold BRInv at hb ⊢
      simp only
      refine ⟨hb.1, hb.2.1, ?_, hb.2.2.2⟩
      omega
    · exact absurd h (by simp)

theorem pyPop_eq_some {l l2 : List α} {i : Nat} :
    pyPop l i = some l2 ↔ i < l.length ∧ l2 = l.eraseIdx i := by
  unfold pyPop
  split
  · simp only [Option.some_inj]
    constructor
    · intro h
      exact ⟨by assumption, h.symm⟩
    · intro h
      exact h.2.symm
  · simp only [reduceCtorEq, false_iff, not_and]
    intro h
    exact absurd h (by assumption)

theorem frame_removeBaserunnerByIndex {i : Nat} {s s2 : GameState}
    (h : removeBaserunnerByIndex i s = some s2) : Frame s s2 := by
  simp only [removeBaserunnerByIndex, Option.bind_eq_bind, Option.bind_eq_some,
    Option.pure_def, Option.some_inj] at h
  obtain ⟨br, hbr, bn, hbn, bm, hbm, bo, hbo, hs2⟩ := h
  rw [pyPop_eq_some] at hbr hbn hbm hbo
  obtain ⟨hbr1, hbr2⟩ := hbr
  obtain ⟨hbn1, hbn2⟩ := hbn
  obtain ⟨hbm1, hbm2⟩ := hbm
  obtain ⟨hbo1, hbo2⟩ := hbo
  subst hbr2 hbn2 hbm2 hbo2 hs2
  refine ⟨rfl, fun hb => ?_⟩
  obtain ⟨h1, h2, h3, h4⟩ := hb
  have e1 := List.length_eraseIdx_add_one hbr1
  have e2 := List.length_eraseIdx_add_one hbn1
  have e3 := List.length_eraseIdx_add_one hbm1
  have e4 := List.length_eraseIdx_add_one hbo1
  refine ⟨?_, ?_, ?_, ?_⟩ <;> simp only <;> omega

theorem frame_scorePlayer {name : String} {s : GameState}
    {r : GameState × Int} (h : scorePlayer name s = some r) : Frame s r.1 := by
  simp only [scorePlayer, Option.bind_eq_bind, Option.bind_eq_some,
    Option.pure_def, Option.some_inj] at h
  obtain ⟨i, _, s3, hs3, hr⟩ := h
  subst hr
  exact Frame.trans (frame_removeBaserunnerByIndex hs3) (frame_scoreRuns _ _)

@[simp] theorem bumpFrom_length (h : Int) (l : List Int) :
    (bumpFrom h l).length = l.length := by
  induction l generalizing h with
  | nil => rfl
  | cons b bs ih => simp [bumpFrom, ih]

theorem frame_playerToBase (p : PlayerState) (b : Int) (s : GameState) :
    Frame s (playerToBase p b s) := by
  refine ⟨rfl, fun hb => ?_⟩
  obtain ⟨h1, h2, h3, h4⟩ := hb
  refine ⟨?_, ?_, ?_, ?_⟩ <;> simp [playerToBase] <;> omega

theorem updateRunnerMods_length {ids mods : List String} {rid nm : String}
    {r : List String} (h : updateRunnerMods ids mods rid nm = some r) :
    r.length = mods.length := by
  induction ids generalizing mods r with
  | nil =>
    unfold updateRunnerMods at h
    injection h with h
    subst h
    rfl
  | cons i is ih =>
    match mods with
    | [] =>
      unfold updateRunnerMods at h
      split at h
      · exact Option.noConfusion h
      · exact ih h
    | m :: ms =>
      unfold updateRunnerMods at h
      rw [Option.map_eq_some'] at h
      obtain ⟨r2, hr2, hr⟩ := h
      subst hr
      simpa using ih hr2

theorem frame_applyScoringExtras {extras : List Extra} {s s2 : GameState}
    (h : applyScoringExtras extras s = some s2) : Frame s s2 := by
  induction extras generalizing s with
  | nil =>
    unfold applyScoringExtras at h
    injection h with h
    subst h
    exact Frame.refl s
  | cons e rest ih =>
    match e with
    | .score _ _ | .sacrifice _ _ | .blaserunning _ | .heating_up _ =>
      exact Option.noConfusion h
    | .use_free_refill n1 n2 =>
      simp only [applyScoringExtras, Option.bind_eq_bind, Option.bind_eq_some,
        Option.pure_def, Option.some_inj] at h
      obtain ⟨u1, hu1, b, hb, u2, hu2, h⟩ := h
      split at h
      · refine Frame.trans (Frame.of_game_update_eqs ?_ ?_ ?_ ?_ ?_ ?_) (ih h)
          <;> simp
      · simp only [Option.bind_eq_bind, Option.bind_eq_some, Option.pure_def,
          Option.some_inj] at h
        obtain ⟨u3, hu3, rf, hrf, b2, hb2, mods2, hmods2, h⟩ := h
        by_cases hc : b2.id = rf.id
        · rw [if_pos hc] at hmods2 h
          have hlen := updateRunnerMods_length hmods2
          refine Frame.trans ⟨?_, ?_⟩ (ih h)
          · simp
          · intro hbInv
            obtain ⟨i1, i2, i3, i4⟩ := hbInv
            simp only [BRInv, setBattingTeam_game_update, modTF_baseRunners,
              modTF_baseRunnerNames, modTF_baseRunnerMods, modTF_basesOccupied,
              modTF_baserunnerCount] at hlen ⊢
            refine ⟨?_, ?_, ?_, ?_⟩ <;> omega
        · rw [if_neg hc] at hmods2 h
          have hlen := updateRunnerMods_length hmods2
          refine Frame.trans ⟨?_, ?_⟩ (ih h)
          · simp
          · intro hbInv
            obtain ⟨i1, i2, i3, i4⟩ := hbInv
            simp only [BRInv, setBattingTeam_game_update, modTF_baseRunners,
              modTF_baseRunnerNames, modTF_baseRunnerMods, modTF_basesOccupied,
              modTF_baserunnerCount] at hlen ⊢
            refine ⟨?_, ?_, ?_, ?_⟩ <;> omega

theorem frame_updateScoresGo {items : List Extra} {runs : Int} {s : GameState}
    {r : GameState × Int} (h : updateScoresGo items runs s = some r) :
    Frame s r.1 := by
  induction items generalizing runs s with
  | nil =>
    unfold updateScoresGo at h
    injection h with h
    subst h
    exact Frame.refl s
  | cons e rest ih =>
    match e with
    | .use_free_refill _ _ | .blaserunning _ | .heating_up _ =>
      exact Option.noConfusion h
    | .score name extras | .sacrifice name extras =>
      simp only [updateScoresGo, Option.bind_eq_bind, Option.bind_eq_some] at h
      obtain ⟨s3, hs3, p, hp, h⟩ := h
      exact Frame.trans (frame_applyScoringExtras hs3)
        (Frame.trans (frame_scorePlayer hp) (ih h))

theorem frame_updateScores {items : List Extra} {s s2 : GameState}
    (h : updateScores items s = some s2) : Frame s s2 := by
  simp only [updateScores, Option.bind_eq_bind, Option.bind_eq_some,
    Option.pure_def, Option.some_inj] at h
  obtain ⟨⟨s3, runs⟩, hgo, h⟩ := h
  subst h
  exact Frame.trans (frame_updateScoresGo hgo) (frame_recordRuns _ _)

theorem frame_updateCountText {ev : FeedEvent} {opts : List String}
    {s : GameState} {r : GameState × Option GameUpdate}
    (h : updateCountText ev opts s = some r) : Frame s r.1 ∧ r.2 = none := by
  induction opts with
  | nil => exact Option.noConfusion h
  | cons t ts ih =>
    unfold updateCountText at h
    dsimp only at h
    split at h
    · injection h with h
      subst h
      exact ⟨Frame.of_game_update_eqs rfl rfl rfl rfl rfl rfl, rfl⟩
    · exact ih h

theorem frame_removeFirstBaserunners {n : Nat} {s s2 : GameState}
    (h : removeFirstBaserunners n s = some s2) : Frame s s2 := by
  induction n generalizing s with
  | zero =>
    unfold removeFirstBaserunners at h
    injection h with h
    subst h
    exact Frame.refl s
  | succ n ih =>
    simp only [removeFirstBaserunners, Option.bind_eq_bind,
      Option.bind_eq_some] at h
    obtain ⟨s3, hs3, h⟩ := h
    exact Frame.trans (frame_removeBaserunnerByIndex hs3) (ih h)

theorem frame_updateWalkGeneric (b : PlayerState) (s : GameState) :
    Frame s (updateWalkGeneric b s) :=
  Frame.trans (frame_playerToBase b 0 s) (frame_endAtbat _)

/-! ### Per-handler frame lemmas

For every handler other than `updatePlayBall`: a successful dispatch
leaves `playCount` unchanged, keeps the parallel-array invariant, and
returns no override document. -/

theorem hframe_updateLetsGo {ev : FeedEvent} {snap : Option GameUpdate}
    {s : GameState} {r : GameState × Option GameUpdate}
    (h : updateLetsGo ev snap s = some r) : Frame s r.1 ∧ r.2 = none := by
  simp only [updateLetsGo, Option.bind_eq_bind, Option.bind_eq_some,
    Option.pure_def, Option.some_inj] at h
  obtain ⟨u1, _, u2, _, hr⟩ := h
  subst hr
  exact ⟨Frame.of_game_update_eqs (by simp) (by simp) (by simp) (by simp)
    (by simp) (by simp), rfl⟩

theorem hframe_updateHalfInningStart {ev : FeedEvent}
    {snap : Option GameUpdate} {s : GameState}
    {r : GameState × Option GameUpdate}
    (h : updateHalfInningStart ev snap s = some r) :
    Frame s r.1 ∧ r.2 = none := by
  simp only [updateHalfInningStart, Option.bind_eq_bind, Option.bind_eq_some,
    Option.pure_def, Option.some_inj] at h
  obtain ⟨u1, _, u2, _, hr⟩ := h
  subst hr
  refine ⟨Frame.of_game_update_eqs ?_ ?_ ?_ ?_ ?_ ?_, rfl⟩
    <;> split <;> (try split) <;> simp

theorem hframe_updateBatterUp {ev : FeedEvent} {snap : Option GameUpdate}
    {s : GameState} {r : GameState × Option GameUpdate}
    (h : updateBatterUp ev snap s = some r) : Frame s r.1 ∧ r.2 = none := by
  simp only [updateBatterUp, Option.bind_eq_bind, Option.bind_eq_some,
    Option.pure_def, Option.some_inj] at h
  obtain ⟨u1, hu1, ⟨inh, bn, tn, wld⟩, hasp, h⟩ := h
  rcases inh with _ | ⟨hn, hdn⟩ <;>
    simp only [Option.bind_eq_bind, Option.bind_eq_some, Option.pure_def,
      Option.some_inj] at h
  · obtain ⟨sMid, hsMid, b, hb, u3, hu3, u4, hu4, u5, hu5, hr⟩ := h
    subst hsMid
    subst hr
    refine ⟨?_, rfl⟩
    apply Frame.of_game_update_eqs <;> split <;> simp
  · obtain ⟨sMid, ⟨ha, hha, u2, hu2, b0, hb0, u3, hu3, hpure⟩,
      b, hb, u4, hu4, u5, hu5, u6, hu6, hr⟩ := h
    subst hpure
    subst hr
    refine ⟨?_, rfl⟩
    apply Frame.of_game_update_eqs <;> split <;> simp

theorem hframe_updatePlayBall {ev : FeedEvent} {snap : Option GameUpdate}
    {s : GameState} {r : GameState × Option GameUpdate}
    (h : updatePlayBall ev snap s = some r) :
    r.1.game_update.playCount = s.game_update.playCount + 1 ∧
    (BRInv s.game_update → BRInv r.1.game_update) ∧
    ∃ d, r.2 = some d ∧ d.playCount = s.game_update.playCount + 1 ∧
      (BRInv s.game_update → BRInv d) := by
  simp only [updatePlayBall, Option.bind_eq_bind, Option.bind_eq_some,
    Option.pure_def, Option.some_inj] at h
  obtain ⟨u1, hu1, u2, hu2, hr⟩ := h
  subst hr
  refine ⟨rfl, fun hb => ?_, _, rfl, rfl, fun hb => ?_⟩
  · simpa [BRInv] using hb
  · simpa [BRInv] using hb

theorem frame_stolenBaseFinish {pex : List Extra} {ee : Bool} {runs : Int}
    {s : GameState} {r : GameState × Int}
    (h : stolenBaseFinish pex ee runs s = some r) : Frame s r.1 := by
  unfold stolenBaseFinish at h
  split at h
  · simp only [Option.bind_eq_bind, Option.bind_eq_some, Option.pure_def,
      Option.some_inj] at h
    obtain ⟨s2, hs2, hr⟩ := h
    subst hr
    exact frame_applyScoringExtras hs2
  · simp only [Option.bind_eq_bind, Option.bind_eq_some, Option.pure_def,
      Option.some_inj] at h
    obtain ⟨u, hu, hr⟩ := h
    subst hr
    exact Frame.refl s

theorem frame_stolenBaseScore {sn : String} {bs : Int} {pex : List Extra}
    {ee : Bool} {runs : Int} {s : GameState} {r : GameState × Int}
    (h : stolenBaseScore sn bs pex ee runs s = some r) : Frame s r.1 := by
  unfold stolenBaseScore at h
  split at h
  · simp only [Option.bind_eq_bind, Option.bind_eq_some] at h
    obtain ⟨⟨s2, r2⟩, hsp, h⟩ := h
    exact Frame.trans (frame_scorePlayer hsp) (frame_stolenBaseFinish h)
  · exact frame_stolenBaseFinish h

set_option maxHeartbeats 1000000 in
theorem hframe_updateBaseSteal {ev : FeedEvent} {snap : Option GameUpdate}
    {s : GameState} {r : GameState × Option GameUpdate}
    (h : updateBaseSteal ev snap s = some r) : Frame s r.1 ∧ r.2 = none := by
  simp only [updateBaseSteal, Option.bind_eq_bind, Option.bind_eq_some,
    Option.pure_def, Option.some_inj] at h
  obtain ⟨u1, hu1, ⟨kind, sn, bsn, pex⟩, hasp, bs, hbs, idx, hidx, nm, hnm,
    u2, hu2, ⟨sMid, runs⟩, hmid, hr⟩ := h
  subst hr
  refine ⟨?_, rfl⟩
  have hfr : Frame s sMid := by
    rcases kind with _ | _
    · rcases pex with _ | ⟨e, rest⟩ <;>
        simp only [Option.bind_eq_bind, Option.bind_eq_some,
          Option.pure_def, Option.some_inj] at hmid
      · obtain ⟨occ, hocc, hsc⟩ := hmid
        refine Frame.trans ?_ (frame_stolenBaseScore hsc)
        exact Frame.of_game_update_lens rfl (by simp) (by simp) (by simp)
          (by simp) (by simp)
      · rcases e with e | e | e | e | e <;>
          simp only [Option.bind_eq_bind, Option.bind_eq_some,
            Option.pure_def, Option.some_inj] at hmid
        case blaserunning =>
          obtain ⟨occ, hocc, u3, hu3, hsc⟩ := hmid
          refine Frame.trans ?_ (frame_stolenBaseScore hsc)
          refine Frame.trans ?_ (frame_scoreRuns _ _)
          exact Frame.of_game_update_lens rfl (by simp) (by simp) (by simp)
            (by simp) (by simp)
        all_goals
          obtain ⟨occ, hocc, hsc⟩ := hmid
          refine Frame.trans ?_ (frame_stolenBaseScore hsc)
          exact Frame.of_game_update_lens rfl (by simp) (by simp) (by simp)
            (by simp) (by simp)
    · simp only [Option.bind_eq_bind, Option.bind_eq_some, Option.pure_def,
        Option.some_inj, Prod.mk.injEq] at hmid
      obtain ⟨s4, hs4, s5, hs5, h6, _⟩ := hmid
      subst h6
      exact Frame.trans (frame_removeBaserunnerByIndex hs4)
        (frame_updateOut hs5)
  refine Frame.trans hfr ?_
  refine Frame.trans (frame_recordRuns runs sMid) ?_
  exact Frame.of_game_update_eqs rfl rfl rfl rfl rfl rfl

theorem hframe_updateWalk {ev : FeedEvent} {snap : Option GameUpdate}
    {s : GameState} {r : GameState × Option GameUpdate}
    (h : updateWalk ev snap s = some r) : Frame s r.1 ∧ r.2 = none := by
  simp only [updateWalk, Option.bind_eq_bind, Option.bind_eq_some,
    Option.pure_def, Option.some_inj] at h
  obtain ⟨u1, hu1, ⟨wn, rest⟩, hasp, b, hb, u2, hu2, s3, hs3, hr⟩ := h
  subst hr
  refine ⟨?_, rfl⟩
  refine Frame.trans (frame_updateWalkGeneric b s) ?_
  refine Frame.trans (frame_updateScores hs3) ?_
  exact Frame.of_game_update_eqs rfl rfl rfl rfl rfl rfl

theorem hframe_updateStrikeout {ev : FeedEvent} {snap : Option GameUpdate}
    {s : GameState} {r : GameState × Option GameUpdate}
    (h : updateStrikeout ev snap s = some r) : Frame s r.1 ∧ r.2 = none := by
  simp only [updateStrikeout, Option.bind_eq_bind, Option.bind_eq_some,
    Option.pure_def, Option.some_inj] at h
  obtain ⟨u1, hu1, parsed, hasp, b, hb, sMid, hmid, s3, hs3, hr⟩ := h
  subst hr
  refine ⟨?_, rfl⟩
  have hfr : Frame s sMid := by
    rcases parsed with ⟨pn, st⟩ | ⟨n1, n2, n3, sw⟩ <;>
      simp only [Option.bind_eq_bind, Option.bind_eq_some, Option.pure_def,
        Option.some_inj] at hmid
    · obtain ⟨u2, hu2, u3, hu3, hs⟩ := hmid
      subst hs
      exact Frame.refl s
    · obtain ⟨u2, hu2, u3, hu3, u4, hu4, u5, hu5, hs⟩ := hmid
      subst hs
      exact Frame.refl s
  refine Frame.trans hfr ?_
  refine Frame.trans (Frame.of_game_update_eqs rfl rfl rfl rfl rfl rfl :
    Frame sMid { sMid with game_update.lastUpdate := ev.description }) ?_
  exact frame_updateOut hs3

theorem hframe_fieldingOutFinish {ev : FeedEvent} {snap : Option GameUpdate}
    {b : PlayerState} {bn : String} {scores : List Extra} {s : GameState}
    {r : GameState × Option GameUpdate}
    (h : fieldingOutFinish ev snap b bn scores s = some r) :
    Frame s r.1 ∧ r.2 = none := by
  simp only [fieldingOutFinish, Option.bind_eq_bind, Option.bind_eq_some,
    Option.pure_def, Option.some_inj] at h
  obtain ⟨u1, hu1, s3, hs3, s4, hs4, s5, hs5, hr⟩ := h
  subst hr
  refine ⟨?_, rfl⟩
  refine Frame.trans (frame_updateScores hs3) ?_
  refine Frame.trans (Frame.of_game_update_eqs rfl rfl rfl rfl rfl rfl :
    Frame s3 { s3 with game_update.lastUpdate := ev.description }) ?_
  exact Frame.trans (frame_updateOut hs4) (frame_maybeAdvanceBaserunners hs5)

set_option maxHeartbeats 1000000 in
theorem hframe_updateFieldingOut {ev : FeedEvent} {snap : Option GameUpdate}
    {s : GameState} {r : GameState × Option GameUpdate}
    (h : updateFieldingOut ev snap s = some r) : Frame s r.1 ∧ r.2 = none := by
  simp only [updateFieldingOut, Option.bind_eq_bind, Option.bind_eq_some,
    Option.pure_def, Option.some_inj] at h
  obtain ⟨u1, hu1, parse, hasp, b, hb, h⟩ := h
  rcases parse with ⟨bn, fl, sc⟩ | ⟨bn, fl, sc⟩ | ⟨bn, sc⟩ | ⟨ro, bsn, sc, bn⟩ <;>
    simp only [Option.bind_eq_bind, Option.bind_eq_some, Option.pure_def,
      Option.some_inj] at h
  · obtain ⟨u2, hu2, hfin⟩ := h
    exact hframe_fieldingOutFinish hfin
  · obtain ⟨u2, hu2, hfin⟩ := h
    exact hframe_fieldingOutFinish hfin
  · obtain ⟨u2, hu2, s3, hs3, s4, hs4, hfin⟩ := h
    obtain ⟨hf1, hf2⟩ := hframe_fieldingOutFinish hfin
    refine ⟨?_, hf2⟩
    refine Frame.trans (Frame.of_game_update_eqs rfl rfl rfl rfl rfl rfl :
      Frame s { s with game_update.halfInningOuts :=
        s.game_update.halfInningOuts + 1 }) ?_
    refine Frame.trans (frame_updateScores hs3) ?_
    refine Frame.trans ?_ hf1
    split at hs4
    · simp only [Option.bind_eq_bind, Option.bind_eq_some] at hs4
      obtain ⟨g, hg, hs4⟩ := hs4
      split at hs4
      · obtain ⟨i, hi, hrem⟩ := Option.bind_eq_some.mp (by
          simpa only [Option.bind_eq_bind] using hs4)
        exact frame_removeBaserunnerByIndex hrem
      · exact Option.noConfusion hs4
    · injection hs4 with hs4
      subst hs4
      exact Frame.refl _
  · obtain ⟨i, hi, s3, hs3, hfin⟩ := h
    obtain ⟨hf1, hf2⟩ := hframe_fieldingOutFinish hfin
    refine ⟨?_, hf2⟩
    refine Frame.trans (frame_removeBaserunnerByIndex hs3) ?_
    exact Frame.trans (frame_playerToBase b 0 s3) hf1

theorem hframe_updateBall {ev : FeedEvent} {snap : Option GameUpdate}
    {s : GameState} {r : GameState × Option GameUpdate}
    (h : updateBall ev snap s = some r) : Frame s r.1 ∧ r.2 = none := by
  simp only [updateBall, Option.bind_eq_bind, Option.bind_eq_some] at h
  obtain ⟨u1, hu1, h⟩ := h
  obtain ⟨hf, hr⟩ := frame_updateCountText h
  exact ⟨Frame.trans (Frame.of_game_update_eqs rfl rfl rfl rfl rfl rfl) hf, hr⟩

theorem hframe_updateFoulBall {ev : FeedEvent} {snap : Option GameUpdate}
    {s : GameState} {r : GameState × Option GameUpdate}
    (h : updateFoulBall ev snap s = some r) : Frame s r.1 ∧ r.2 = none := by
  simp only [updateFoulBall, Option.bind_eq_bind, Option.bind_eq_some] at h
  obtain ⟨u1, hu1, h⟩ := h
  obtain ⟨hf, hr⟩ := frame_updateCountText h
  refine ⟨Frame.trans ?_ hf, hr⟩
  split
  · exact Frame.of_game_update_eqs rfl rfl rfl rfl rfl rfl
  · exact Frame.refl s

theorem hframe_updateStrike {ev : FeedEvent} {snap : Option GameUpdate}
    {s : GameState} {r : GameState × Option GameUpdate}
    (h : updateStrike ev snap s = some r) : Frame s r.1 ∧ r.2 = none := by
  simp only [updateStrike, Option.bind_eq_bind, Option.bind_eq_some] at h
  obtain ⟨u1, hu1, h⟩ := h
  obtain ⟨hf, hr⟩ := frame_updateCountText h
  exact ⟨Frame.trans (Frame.of_game_update_eqs rfl rfl rfl rfl rfl rfl) hf, hr⟩

theorem hframe_updateStrikeZapped {ev : FeedEvent} {snap : Option GameUpdate}
    {s : GameState} {r : GameState × Option GameUpdate}
    (h : updateStrikeZapped ev snap s = some r) : Frame s r.1 ∧ r.2 = none := by
  simp only [updateStrikeZapped, Option.bind_eq_bind, Option.bind_eq_some,
    Option.pure_def, Option.some_inj] at h
  obtain ⟨u1, hu1, u2, hu2, u3, hu3, hr⟩ := h
  subst hr
  exact ⟨Frame.of_game_update_eqs rfl rfl rfl rfl rfl rfl, rfl⟩

theorem hframe_updateMildPitch {ev : FeedEvent} {snap : Option GameUpdate}
    {s : GameState} {r : GameState × Option GameUpdate}
    (h : updateMildPitch ev snap s = some r) : Frame s r.1 ∧ r.2 = none := by
  simp only [updateMildPitch, Option.bind_eq_bind, Option.bind_eq_some,
    Option.pure_def, Option.some_inj] at h
  obtain ⟨u1, hu1, ⟨pn, pitch, rest⟩, hasp, u2, hu2, sMid, hmid, s3, hs3, hr⟩
    := h
  subst hr
  refine ⟨?_, rfl⟩
  have hfr : Frame s sMid := by
    rcases pitch with ⟨pb, ps⟩ | ⟨wn⟩ <;>
      simp only [Option.bind_eq_bind, Option.bind_eq_some, Option.pure_def,
        Option.some_inj] at hmid
    · obtain ⟨u3, hu3, u4, hu4, hs⟩ := hmid
      subst hs
      exact Frame.of_game_update_eqs rfl rfl rfl rfl rfl rfl
    · obtain ⟨b, hb, u3, hu3, hs⟩ := hmid
      subst hs
      exact frame_updateWalkGeneric b s
  refine Frame.trans hfr ?_
  refine Frame.trans (frame_updateScores hs3) ?_
  exact Frame.of_game_update_eqs rfl rfl rfl rfl rfl rfl

theorem hframe_updateHomeRun {ev : FeedEvent} {snap : Option GameUpdate}
    {s : GameState} {r : GameState × Option GameUpdate}
    (h : updateHomeRun ev snap s = some r) : Frame s r.1 ∧ r.2 = none := by
  simp only [updateHomeRun, Option.bind_eq_bind, Option.bind_eq_some,
    Option.pure_def, Option.some_inj] at h
  obtain ⟨u1, hu1, ⟨bn, kind, rest⟩, hasp, s3, hs3, s4, hs4, u2, hu2, hr⟩ := h
  subst hr
  refine ⟨?_, rfl⟩
  refine Frame.trans (frame_applyScoringExtras hs3) ?_
  refine Frame.trans (frame_removeFirstBaserunners hs4) ?_
  refine Frame.trans ?_ (frame_endAtbat _)
  refine Frame.trans ?_ (frame_recordRuns _ _)
  refine Frame.trans ?_ (frame_scoreRuns _ _)
  exact Frame.of_game_update_eqs rfl rfl rfl rfl rfl rfl

theorem hframe_updateHit {ev : FeedEvent} {snap : Option GameUpdate}
    {s : GameState} {r : GameState × Option GameUpdate}
    (h : updateHit ev snap s = some r) : Frame s r.1 ∧ r.2 = none := by
  simp only [updateHit, Option.bind_eq_bind, Option.bind_eq_some,
    Option.pure_def, Option.some_inj] at h
  obtain ⟨u1, hu1, ⟨bn, basen, rest⟩, hasp, rest2, hrest2, b, hb, u2, hu2,
    s3, hs3, bnum, hbnum, s4, hs4, hr⟩ := h
  subst hr
  refine ⟨?_, rfl⟩
  refine Frame.trans (frame_updateScores hs3) ?_
  refine Frame.trans (Frame.of_game_update_eqs rfl rfl rfl rfl rfl rfl :
    Frame s3 { s3 with game_update.lastUpdate := ev.description }) ?_
  refine Frame.trans (frame_playerToBase b bnum _) ?_
  exact Frame.trans (frame_endAtbat _) (frame_maybeAdvanceBaserunners hs4)

theorem hframe_updateGameScore {ev : FeedEvent} {snap : Option GameUpdate}
    {s : GameState} {r : GameState × Option GameUpdate}
    (h : updateGameScore ev snap s = some r) : Frame s r.1 ∧ r.2 = none := by
  simp only [updateGameScore, Option.bind_eq_bind, Option.bind_eq_some,
    Option.pure_def, Option.some_inj] at h
  obtain ⟨u1, hu1, u2, hu2, hr⟩ := h
  subst hr
  exact ⟨Frame.of_game_update_eqs rfl rfl rfl rfl rfl rfl, rfl⟩

theorem hframe_updateBlooddrain {ev : FeedEvent} {snap : Option GameUpdate}
    {s : GameState} {r : GameState × Option GameUpdate}
    (h : updateBlooddrain ev snap s = some r) : Frame s r.1 ∧ r.2 = none := by
  simp only [updateBlooddrain, Option.bind_eq_bind, Option.bind_eq_some,
    Option.pure_def, Option.some_inj] at h
  obtain ⟨u1, hu1, parse, hasp, h⟩ := h
  rcases parse with ⟨n1, n2, n3, cat, act⟩ | _
  · simp only [Option.bind_eq_bind, Option.bind_eq_some, Option.pure_def,
      Option.some_inj] at h
    obtain ⟨u2, hu2, h⟩ := h
    rcases act with ⟨n4⟩ | _
    · simp only [Option.bind_eq_bind, Option.bind_eq_some, Option.pure_def,
        Option.some_inj] at h
      obtain ⟨u3, hu3, u4, hu4, hr⟩ := h
      subst hr
      exact ⟨Frame.of_game_update_eqs rfl rfl rfl rfl rfl rfl, rfl⟩
    · exact Option.noConfusion h
  · exact Option.noConfusion h

theorem hframe_updateInningEnd {ev : FeedEvent} {snap : Option GameUpdate}
    {s : GameState} {r : GameState × Option GameUpdate}
    (h : updateInningEnd ev snap s = some r) : Frame s r.1 ∧ r.2 = none := by
  simp only [updateInningEnd, Option.bind_eq_bind, Option.bind_eq_some,
    Option.pure_def, Option.some_inj] at h
  obtain ⟨u1, hu1, u2, hu2, hr⟩ := h
  subst hr
  exact ⟨Frame.of_game_update_eqs rfl rfl rfl rfl rfl rfl, rfl⟩

theorem hframe_updateNoStateChangePitch {ev : FeedEvent}
    {snap : Option GameUpdate} {s : GameState}
    {r : GameState × Option GameUpdate}
    (h : updateNoStateChangePitch ev snap s = some r) :
    Frame s r.1 ∧ r.2 = none := by
  simp only [updateNoStateChangePitch, Option.bind_eq_bind,
    Option.bind_eq_some, Option.pure_def, Option.some_inj] at h
  obtain ⟨u1, hu1, hr⟩ := h
  subst hr
  exact ⟨Frame.of_game_update_eqs rfl rfl rfl rfl rfl rfl, rfl⟩

theorem hframe_updateNoStateChangeBatterUp {ev : FeedEvent}
    {snap : Option GameUpdate} {s : GameState}
    {r : GameState × Option GameUpdate}
    (h : updateNoStateChangeBatterUp ev snap s = some r) :
    Frame s r.1 ∧ r.2 = none := by
  simp only [updateNoStateChangeBatterUp, Option.bind_eq_bind,
    Option.bind_eq_some, Option.pure_def, Option.some_inj] at h
  obtain ⟨u1, hu1, hr⟩ := h
  subst hr
  exact ⟨Frame.of_game_update_eqs rfl rfl rfl rfl rfl rfl, rfl⟩

theorem hframe_updateCoffeeBean {ev : FeedEvent} {snap : Option GameUpdate}
    {s : GameState} {r : GameState × Option GameUpdate}
    (h : updateCoffeeBean ev snap s = some r) : Frame s r.1 ∧ r.2 = none := by
  simp only [updateCoffeeBean, Option.bind_eq_bind, Option.bind_eq_some,
    Option.pure_def, Option.some_inj] at h
  obtain ⟨u1, hu1, ⟨n1, fl, n2, md⟩, hasp, u2, hu2, hr⟩ := h
  subst hr
  exact ⟨Frame.refl s, rfl⟩

/-- Dispatch-level frame lemma: every successful `step` either behaves
like a normal handler (no override, `playCount` and the parallel-array
invariant untouched) or is the `play_ball` handler (manual `playCount`
increment, override document returned). -/
theorem step_frame {ev : FeedEvent} {snap : Option GameUpdate}
    {s : GameState} {r : GameState × Option GameUpdate}
    (h : step ev snap s = some r) :
    (Frame s r.1 ∧ r.2 = none) ∨
    (r.1.game_update.playCount = s.game_update.playCount + 1 ∧
     (BRInv s.game_update → BRInv r.1.game_update) ∧
     ∃ d, r.2 = some d ∧ d.playCount = s.game_update.playCount + 1 ∧
       (BRInv s.game_update → BRInv d)) := by
  unfold step at h
  split at h
  · exact Or.inl (hframe_updateLetsGo h)
  · exact Or.inr (hframe_updatePlayBall h)
  · exact Or.inl (hframe_updateHalfInningStart h)
  · exact Or.inl (hframe_updateBaseSteal h)
  · exact Or.inl (hframe_updateWalk h)
  · exact Or.inl (hframe_updateStrikeout h)
  · exact Or.inl (hframe_updateFieldingOut h)
  · exact Or.inl (hframe_updateFieldingOut h)
  · exact Or.inl (hframe_updateHomeRun h)
  · exact Or.inl (hframe_updateHit h)
  · exact Or.inl (hframe_updateGameScore h)
  · exact Or.inl (hframe_updateBatterUp h)
  · exact Or.inl (hframe_updateStrike h)
  · exact Or.inl (hframe_updateBall h)
  · exact Or.inl (hframe_updateFoulBall h)
  · exact Or.inl (hframe_updateStrikeZapped h)
  · exact Or.inl (hframe_updateMildPitch h)
  · exact Or.inl (hframe_updateInningEnd h)
  · exact Or.inl (hframe_updateCoffeeBean h)
  · exact Or.inl (hframe_updateBlooddrain h)
  · exact Or.inl (hframe_updateNoStateChangePitch h)
  · exact Or.inl (hframe_updateNoStateChangeBatterUp h)
  · exact Option.noConfusion h

/-- Driver-level destructuring: a successful `update` is a successful
`step` on the `scoreUpdate`-cleared state, followed either by the
automatic `playCount` increment (no override) or by emitting the
override document. -/
theorem update_cases {ev : FeedEvent} {snap : Option GameUpdate}
    {s s2 : GameState} {d : GameUpdate}
    (h : update ev snap s = some (s2, d)) :
    ∃ r, step ev snap { s with game_update.scoreUpdate := "" } = some r ∧
      ((r.2 = none ∧
        s2 = { r.1 with game_update.playCount :=
          r.1.game_update.playCount + 1 } ∧
        d = s2.game_update) ∨
       (r.2 = some d ∧ s2 = r.1)) := by
  simp only [update, Option.bind_eq_bind, Option.bind_eq_some,
    Option.pure_def, Option.some_inj] at h
  obtain ⟨⟨s1, ret⟩, hstep, h⟩ := h
  refine ⟨(s1, ret), hstep, ?_⟩
  rcases ret with _ | doc <;>
    simp only [Option.some_inj, Prod.mk.injEq] at h
  · obtain ⟨h1, h2⟩ := h
    subst h1
    exact Or.inl ⟨rfl, rfl, h2.symm⟩
  · obtain ⟨h1, h2⟩ := h
    subst h1 h2
    exact Or.inr ⟨rfl, rfl⟩

/-! ## Concrete fixtures

A small mid-game state used by the witnesses and counterexamples: top of
the third inning, the Aways batting with the lineup slot on `Batter`, one
baserunner (`Runner`, who carries a `COFFEE_RALLY` mod) on second base. -/

def exBatter : PlayerState :=
  { id := "batter-a", name := "Batter", mods := [], legacy_item := none }

def exRunner : PlayerState :=
  { id := "runner-a", name := "Runner", mods := ["COFFEE_RALLY"],
    legacy_item := none }

def exAwayPitcher : PlayerState :=
  { id := "pitcher-a", name := "Pitcher A", mods := [], legacy_item := some "" }

def exHomePitcher : PlayerState :=
  { id := "pitcher-h", name := "Pitcher H", mods := [], legacy_item := some "" }

def exAwayTF : TeamFields := {
  batter := some "batter-a", batterName := "Batter", batterMod := "",
  pitcher := some "pitcher-a", pitcherName := "Pitcher A", pitcherMod := "",
  score := 30, teamBatterCount := 7, outs := 3, strikes := 3, balls := 4,
  bases := 4, teamName := "Away Team", teamNickname := "Aways",
  odds := 5, team := "team-a", teamColor := "", teamEmoji := "",
  teamSecondaryColor := "" }

def exHomeTF : TeamFields := {
  batter := none, batterName := "", batterMod := "",
  pitcher := some "pitcher-h", pitcherName := "Pitcher H", pitcherMod := "",
  score := 20, teamBatterCount := 6, outs := 3, strikes := 3, balls := 4,
  bases := 4, teamName := "Home Team", teamNickname := "Homes",
  odds := 5, team := "team-h", teamColor := "", teamEmoji := "",
  teamSecondaryColor := "" }

def exDoc : GameUpdate := {
  away := exAwayTF, home := exHomeTF, phase := 6, inning := 2,
  topOfInning := true, gameStart := true, gameStartPhase := 10,
  newInningPhase := -1, halfInningOuts := 0, halfInningScore := 0,
  topInningScore := 0, bottomInningScore := 0, playCount := 40,
  atBatBalls := 0, atBatStrikes := 0,
  baseRunners := ["runner-a"], baseRunnerNames := ["Runner"],
  baseRunnerMods := [""], basesOccupied := [1], baserunnerCount := 1,
  lastUpdate := "prev", scoreUpdate := "", finalized := false,
  gameComplete := false, shame := false, static := "" }

def exAwayTeam : TeamState := {
  nickname := "Aways", pitcher := exAwayPitcher,
  lineup := [exBatter, exRunner], batter_index := 0 }

def exHomeTeam : TeamState := {
  nickname := "Homes", pitcher := exHomePitcher, lineup := [],
  batter_index := -1 }

/-- Mid-at-bat state: `expects_pitch`, runner on second. -/
def exState : GameState := {
  expects_lets_go := false, expects_play_ball := false,
  expects_half_inning_start := false, expects_batter_up := false,
  expects_pitch := true, expects_inning_end := false,
  expects_game_end := false,
  reverberate_away := some false, reverberate_home := some false,
  haunter := none, awayState := exAwayTeam, homeState := exHomeTeam,
  game_update := exDoc }

/-- A `no_state_change_pitch` (type 73) event. -/
def exEvNSCP : FeedEvent :=
  { etype := 73, description := "The Peanut flavor text.",
    payload := .plain, haunterLoad := none }

/-- The `exState` fixture satisfies the parallel-array invariant. -/
theorem exState_BRInv : BRInv exState.game_update := by
  refine ⟨rfl, rfl, rfl, rfl⟩

/-- C2 counterexample input: a state awaiting `play_ball`. -/
def exStatePB : GameState :=
  { exState with expects_pitch := false, expects_play_ball := true }

def exEvPB : FeedEvent :=
  { etype := 1, description := "Play ball!", payload := .plain,
    haunterLoad := none }

/-- C2 (counterexample): processing a `play_ball` event (type 1) from a
state with `playCount = 40` leaves the running document at `playCount =
41` — an increase of exactly 1, not the claimed 2 (the handler's manual
increment replaces the driver's skipped increment; the emitted override
document carries the same count). -/
theorem playball_playCount_counterexample :
    (update exEvPB none exStatePB).map
        (fun r => (r.1.game_update.playCount, r.2.playCount)) =
      some (41, 41) ∧
    exStatePB.game_update.playCount = 40 ∧ (41 : Nat) ≠ 40 + 2 := by
  refine ⟨rfl, rfl, by decide⟩

/-- C2 (amended): for every processed feed event — `play_ball` included —
the running document's `playCount` strictly increases by exactly 1 across
the driver's `update` call.  (For `play_ball` the handler's manual
increment substitutes for the automatic increment the early return
skips; the claimed increase of 2 never occurs.) -/
theorem update_playCount_increment {ev : FeedEvent}
    {snap : Option GameUpdate} {s s2 : GameState} {d : GameUpdate}
    (h : update ev snap s = some (s2, d)) :
    s2.game_update.playCount = s.game_update.playCount + 1 := by
  obtain ⟨r, hstep, hcase⟩ := update_cases h
  rcases step_frame hstep with ⟨⟨hpc, _⟩, hnone⟩ | ⟨hpc, _, dd, hdd, _, _⟩
  · rcases hcase with ⟨_, hs2, _⟩ | ⟨hsome, _⟩
    · subst hs2
      simpa using hpc
    · rw [hnone] at hsome
      exact Option.noConfusion hsome
  · rcases hcase with ⟨hnone2, _, _⟩ | ⟨_, hs2⟩
    · rw [hdd] at hnone2
      exact Option.noConfusion hnone2
    · subst hs2
      exact hpc

/-- C2 witness: the amended theorem applied to a concrete
`no_state_change_pitch` event on the fixture state. -/
theorem update_playCount_increment_witness :
    ∃ s2 d, update exEvNSCP none exState = some (s2, d) ∧
      s2.game_update.playCount = exState.game_update.playCount + 1 := by
  obtain ⟨⟨s2, d⟩, h⟩ : ∃ r, update exEvNSCP none exState = some r :=
    ⟨_, rfl⟩
  exact ⟨s2, d, h, update_playCount_increment h⟩

/-- C8: the four baserunner arrays stay parallel (with `baserunnerCount`
their common length) across every successful transition of the state
machine, both in the running document and in the emitted one. -/
theorem update_parallel_arrays {ev : FeedEvent} {snap : Option GameUpdate}
    {s s2 : GameState} {d : GameUpdate}
    (hInv : BRInv s.game_update) (h : update ev snap s = some (s2, d)) :
    BRInv s2.game_update ∧ BRInv d := by
  obtain ⟨r, hstep, hcase⟩ := update_cases h
  have hInv0 : BRInv ({ s with game_update.scoreUpdate := "" }).game_update :=
    hInv
  rcases step_frame hstep with ⟨⟨_, hbr⟩, hnone⟩ | ⟨_, hbr, dd, hdd, _, hbrd⟩
  · rcases hcase with ⟨_, hs2, hd⟩ | ⟨hsome, _⟩
    · subst hs2
      subst hd
      exact ⟨hbr hInv0, hbr hInv0⟩
    · rw [hnone] at hsome
      exact Option.noConfusion hsome
  · rcases hcase with ⟨hnone2, _, _⟩ | ⟨hsome, hs2⟩
    · rw [hdd] at hnone2
      exact Option.noConfusion hnone2
    · subst hs2
      rw [hdd] at hsome
      injection hsome with hsome
      subst hsome
      exact ⟨hbr hInv0, hbrd hInv0⟩

/-- C8 witness: the invariant theorem applied to a concrete event on the
fixture state (one runner on base). -/
theorem update_parallel_arrays_witness :
    BRInv exState.game_update ∧
    ∃ s2 d, update exEvNSCP none exState = some (s2, d) ∧
      BRInv s2.game_update ∧ BRInv d := by
  obtain ⟨⟨s2, d⟩, h⟩ : ∃ r, update exEvNSCP none exState = some r :=
    ⟨_, rfl⟩
  exact ⟨exState_BRInv, s2, d, h,
    update_parallel_arrays exState_BRInv h⟩

/-! ## C7: `_player_to_base` keeps the occupancy strictly ordered -/

/-- "Strictly increasing when read from the last element to the first":
the reversed list is a strictly increasing chain. -/
def StrictBack (l : List Int) : Prop := List.Chain' (· < ·) l.reverse

theorem chain_chain' {a : Int} {l : List Int}
    (h : List.Chain (· < ·) a l) : List.Chain' (· < ·) l := by
  cases h with
  | nil => trivial
  | cons hr hc => exact hc

/-- The renumbering walk emits a chain strictly above its carry: every
runner at or below the running highest base is pushed one past it. -/
theorem bumpFrom_chain (h : Int) (l : List Int) :
    List.Chain (· < ·) h (bumpFrom h l) := by
  induction l generalizing h with
  | nil => exact List.Chain.nil
  | cons b bs ih =>
    unfold bumpFrom
    dsimp only
    split
    · exact List.Chain.cons (by omega) (ih (h + 1))
    · exact List.Chain.cons (by omega) (ih b)

/-- C7: starting from an occupancy that is strictly increasing from the
back, `_player_to_base` leaves it again strictly increasing from the
back; consequently no two baserunners share a base afterwards.  (The
renumbering walk in fact restores this order from any occupancy.) -/
theorem playerToBase_strict_order (s : GameState) (p : PlayerState)
    (b : Int) (h : StrictBack s.game_update.basesOccupied) :
    StrictBack ((playerToBase p b s).game_update.basesOccupied) ∧
    ((playerToBase p b s).game_update.basesOccupied).Nodup := by
  have hchain : List.Chain' (· < ·)
      (bumpFrom (-1) ((s.game_update.basesOccupied ++ [b]).reverse)) :=
    chain_chain' (bumpFrom_chain _ _)
  have hsb : StrictBack ((playerToBase p b s).game_update.basesOccupied) := by
    show List.Chain' (· < ·) _
    rw [show (playerToBase p b s).game_update.basesOccupied =
      (bumpFrom (-1)
        ((s.game_update.basesOccupied ++ [b]).reverse)).reverse from rfl]
    rw [List.reverse_reverse]
    exact hchain
  refine ⟨hsb, ?_⟩
  have hpw : List.Pairwise (· < ·)
      ((playerToBase p b s).game_update.basesOccupied).reverse :=
    List.chain'_iff_pairwise.mp hsb
  rw [← List.nodup_reverse]
  exact hpw.imp (fun hlt => ne_of_lt hlt)

/-- C7 witness: the ordering theorem applied to the fixture state (one
runner on second) with the batter sent to first. -/
theorem playerToBase_strict_order_witness :
    StrictBack exState.game_update.basesOccupied ∧
    (StrictBack ((playerToBase exBatter 0 exState).game_update.basesOccupied) ∧
     ((playerToBase exBatter 0 exState).game_update.basesOccupied).Nodup) :=
  ⟨List.chain'_singleton 1,
   playerToBase_strict_order exState exBatter 0 (List.chain'_singleton 1)⟩

/-! ## C5: reverberation detection in `_update_out` -/

@[simp] theorem reverb_setReverb (s : GameState) (sd : Side)
    (v : Option Bool) : (s.setReverb sd v).reverb sd = v := by
  cases sd <;> rfl

@[simp] theorem tf_modTF_same (g : GameUpdate) (sd : Side)
    (f : TeamFields → TeamFields) : (g.modTF sd f).tf sd = f (g.tf sd) := by
  cases sd <;> rfl

@[simp] theorem reverb_of_game_update_set (s : GameState) (g : GameUpdate)
    (sd : Side) : ({ s with game_update := g } : GameState).reverb sd =
      s.reverb sd := by
  cases sd <;> rfl

/-- C5: after `_update_out` for the batting side: with no snapshot the
reverberation latch becomes unknown and processing continues; with a
snapshot whose team batter count is exactly one below the running one
(compared after the out is recorded), the latch is set and the running
count is decremented; with equal counts the latch is cleared. -/
theorem updateOut_reverberate (fb : Bool) (s : GameState) :
    (∃ s2, updateOut none fb s = some s2 ∧ s2.reverb s.curSide = none) ∧
    (∀ g : GameUpdate,
      ((outAdvance fb s).game_update.tf s.curSide).teamBatterCount -
          (g.tf s.curSide).teamBatterCount = 1 →
      ∃ s2, updateOut (some g) fb s = some s2 ∧
        s2.reverb s.curSide = some true ∧
        (s2.game_update.tf s.curSide).teamBatterCount =
          ((outAdvance fb s).game_update.tf s.curSide).teamBatterCount - 1) ∧
    (∀ g : GameUpdate,
      ((outAdvance fb s).game_update.tf s.curSide).teamBatterCount -
          (g.tf s.curSide).teamBatterCount = 0 →
      ∃ s2, updateOut (some g) fb s = some s2 ∧
        s2.reverb s.curSide = some false ∧
        (s2.game_update.tf s.curSide).teamBatterCount =
          ((outAdvance fb s).game_update.tf s.curSide).teamBatterCount) := by
  refine ⟨⟨_, rfl, by simp⟩, fun g hdiff => ?_, fun g hdiff => ?_⟩
  · unfold updateOut
    dsimp only
    rw [hdiff]
    norm_num
  · unfold updateOut
    dsimp only
    rw [hdiff]
    norm_num

/-- A ground-truth snapshot whose away team batter count sits one below
the running state's. -/
def exSnapTBC6 : GameUpdate :=
  { exDoc with away := { exAwayTF with teamBatterCount := 6 } }

/-- C5 witness: the reverberation case of the theorem applied to the
fixture state with a snapshot one batter behind. -/
theorem updateOut_reverberate_witness :
    ∃ s2, updateOut (some exSnapTBC6) true exState = some s2 ∧
      s2.reverb exState.curSide = some true ∧
      (s2.game_update.tf exState.curSide).teamBatterCount =
        ((outAdvance true exState).game_update.tf
          exState.curSide).teamBatterCount - 1 :=
  (updateOut_reverberate true exState).2.1 exSnapTBC6 (by decide)

/-! ## C3: the out bound -/

/-- Bridging fact: overwriting `halfInningOuts` changes neither the
batting side nor its configured outs. -/
theorem tf_outs_houts_set (s : GameState) (h2 : Int) :
    ((({ s with game_update.halfInningOuts := h2 } : GameState).game_update.tf
      ({ s with game_update.halfInningOuts := h2 } : GameState).curSide).outs)
    = (s.game_update.tf s.curSide).outs := by
  cases hcs : s.game_update.topOfInning <;>
    simp [GameState.curSide, GameUpdate.tf, hcs]

/-- `_update_out`'s unconditional part either ends the half-inning
(resetting the outs to 0) or leaves the incremented count strictly below
the team's configured outs. -/
theorem outAdvance_houts_cases (fb : Bool) (s : GameState) :
    (outAdvance fb s).game_update.halfInningOuts = 0 ∨
    ((outAdvance fb s).game_update.halfInningOuts =
        s.game_update.halfInningOuts + 1 ∧
      s.game_update.halfInningOuts + 1 <
        (s.game_update.tf s.curSide).outs) := by
  unfold outAdvance
  dsimp only
  split
  · left
    simp
  · rename_i hcond
    right
    rw [tf_outs_houts_set s (s.game_update.halfInningOuts + 1)] at hcond
    constructor
    · split <;> simp
    · omega

/-- The reverberation bookkeeping after the out does not touch
`halfInningOuts` or the configured outs. -/
theorem updateOut_houts {snap : Option GameUpdate} {fb : Bool}
    {s s2 : GameState} (h : updateOut snap fb s = some s2) :
    s2.game_update.halfInningOuts =
      (outAdvance fb s).game_update.halfInningOuts ∧
    ∀ sd, (s2.game_update.tf sd).outs =
      ((outAdvance fb s).game_update.tf sd).outs := by
  unfold updateOut at h
  dsimp only at h
  split at h
  · injection h with h
    subst h
    constructor
    · cases hcs : s.curSide <;> simp [GameState.setReverb, hcs]
    · intro sd
      cases hcs : s.curSide <;> cases sd <;>
        simp [GameState.setReverb, GameUpdate.tf, hcs]
  · split at h
    · split at h
      · injection h with h
        subst h
        constructor
        · cases hcs : s.curSide <;>
            simp [GameState.setReverb, GameUpdate.modTF, GameUpdate.setTF, hcs]
        · intro sd
          cases hcs : s.curSide <;> cases sd <;>
            simp [GameState.setReverb, GameUpdate.modTF, GameUpdate.setTF,
              GameUpdate.tf, hcs]
      · exact Option.noConfusion h
    · injection h with h
      subst h
      constructor
      · cases hcs : s.curSide <;> simp [GameState.setReverb]
      · intro sd
        cases hcs : s.curSide <;> cases sd <;>
          simp [GameState.setReverb, GameUpdate.tf]

/-- C3 (amended): transitions that record an out preserve the bound —
starting between half-inning boundaries (`0 ≤ halfInningOuts <
teamOuts`), after `_update_out` the count is again strictly inside the
bound (it only touches `teamOuts` transiently, being reset to 0 in the
very transition that ends the half).  The lower bound is *not* preserved
by free-refill extras: see the counterexample, where
`_apply_scoring_extras` drives `halfInningOuts` to −1. -/
theorem updateOut_bound {snap : Option GameUpdate} {fb : Bool}
    {s s2 : GameState} (h : updateOut snap fb s = some s2)
    (h0 : 0 ≤ s.game_update.halfInningOuts)
    (h1 : s.game_update.halfInningOuts < (s.game_update.tf s.curSide).outs) :
    0 ≤ s2.game_update.halfInningOuts ∧
    s2.game_update.halfInningOuts < (s.game_update.tf s.curSide).outs := by
  obtain ⟨hhouts, houtseq⟩ := updateOut_houts h
  have houtscfg : ((outAdvance fb s).game_update.tf s.curSide).outs =
      (s.game_update.tf s.curSide).outs := by
    unfold outAdvance
    dsimp only
    split
    · cases hcs : s.game_update.topOfInning <;>
        simp [endHalfInning, endGame, endAtbat, GameState.curSide,
          GameState.setBattingTeam, GameUpdate.modTF, GameUpdate.setTF,
          GameUpdate.tf, hcs] <;>
        split <;> (try split) <;> (try split) <;>
        simp [GameUpdate.tf, hcs]
    · split <;>
        cases hcs : s.game_update.topOfInning <;>
        simp [endAtbat, GameState.curSide, GameUpdate.modTF,
          GameUpdate.setTF, GameUpdate.tf, hcs]
  rcases outAdvance_houts_cases fb s with hc | ⟨hc, hlt⟩ <;>
    rw [hhouts, hc] <;> omega

/-- C3 witness: the bound theorem applied to an out recorded from the
fixture state (0 outs, 3 configured). -/
theorem updateOut_bound_witness :
    ∃ s2, updateOut none true exState = some s2 ∧
      0 ≤ s2.game_update.halfInningOuts ∧
      s2.game_update.halfInningOuts <
        (exState.game_update.tf exState.curSide).outs := by
  obtain ⟨s2, h⟩ : ∃ r, updateOut none true exState = some r := ⟨_, rfl⟩
  exact ⟨s2, h, (updateOut_bound h (by decide) (by decide)).1,
    (updateOut_bound h (by decide) (by decide)).2⟩

/-- A walk on which `Runner` scores and consumes a free refill. -/
def exEvWalkFR : FeedEvent := {
  etype := 5,
  description := "Batter draws a walk. Runner scores. Runner used their Free Refill.",
  payload := .walk "Batter"
    [.score "Runner" [.use_free_refill "Runner" "Runner"]],
  haunterLoad := none }

/-- C3 counterexample: a walk processed at 0 outs whose scoring child
carries a `use_free_refill` leaves the document with `halfInningOuts =
−1`: the transition applies the free-refill extra and the claimed lower
bound `0 ≤ halfInningOuts` fails. -/
theorem free_refill_negative_outs_counterexample :
    (update exEvWalkFR none exState).map
        (fun r => r.2.halfInningOuts) = some (-1) ∧
    exState.game_update.halfInningOuts = 0 ∧ ¬((0 : Int) ≤ -1) :=
  ⟨by decide, rfl, by decide⟩

/-! ## C1: home run with a runner on second -/

/-- A solo home run parse, as the claim supposes. -/
def exEvSoloHR : FeedEvent :=
  { etype := 9, description := "Batter hits a solo home run!",
    payload := .home_run "Batter" .solo_hr [], haunterLoad := none }

/-- C1 counterexample: with one baserunner on second, processing a *solo*
home run is fatal — `update_home_run` computes `num_scores = 1`, removes
no baserunners, and fails its `assert len(baseRunners) == 0`; no document
is produced at all. -/
theorem solo_home_run_with_runner_counterexample :
    update exEvSoloHR none exState = none ∧
    exState.game_update.baseRunners = ["runner-a"] ∧
    exState.game_update.basesOccupied = [1] := by
  refine ⟨by decide, rfl, rfl⟩

/-- C1 (amended): with exactly one baserunner (on second), the event a
real feed delivers is a 2-run home run (`multi_hr 2`); processing it with
no extras clears the baserunner arrays, adds 2 runs (20 tenths) to the
batting team's score, sets `scoreUpdate = "2 Runs scored!"`, and ends the
at-bat (batter fields blanked, at-bat counters zeroed). -/
theorem home_run_two_run (s : GameState) (top : Bool)
    (rid rname rmod bn desc : String) (hl : Option PlayerState)
    (snap : Option GameUpdate) :
    let sd := if top then Side.away else Side.home
    let g1 : GameUpdate :=
      { s.game_update with
          topOfInning := top, baseRunners := [rid],
          baseRunnerNames := [rname], baseRunnerMods := [rmod],
          basesOccupied := [1], baserunnerCount := 1 }
    let s1 : GameState := { s with expects_pitch := true, game_update := g1 }
    let ev : FeedEvent :=
      { etype := 9, description := desc,
        payload := .home_run bn (.multi_hr 2) [], haunterLoad := hl }
    ∃ s2 d, update ev snap s1 = some (s2, d) ∧
      d.baseRunners = [] ∧ d.baseRunnerNames = [] ∧
      d.baseRunnerMods = [] ∧ d.basesOccupied = [] ∧
      d.baserunnerCount = 0 ∧
      (d.tf sd).score = (s.game_update.tf sd).score + 20 ∧
      d.scoreUpdate = "2 Runs scored!" ∧
      (d.tf sd).batter = none ∧ (d.tf sd).batterName = "" ∧
      (d.tf sd).batterMod = "" ∧
      d.atBatBalls = 0 ∧ d.atBatStrikes = 0 ∧
      d.lastUpdate = desc := by
  cases top <;>
    exact ⟨_, _, rfl, rfl, rfl, rfl, rfl, rfl, rfl, rfl, rfl, rfl, rfl,
      rfl, rfl, rfl⟩

/-! ## C4: the "copy description only" handlers -/

/-- A coffee bean event with matching bean/mod player names. -/
def exEvCB : FeedEvent :=
  { etype := 39, description := "Batter is Beaned!",
    payload := .coffee_bean "Batter" "Light & Sweet" "Batter" "TIRED",
    haunterLoad := none }

/-- C4 counterexample: `update_coffee_bean` ends in `pass` — processing a
type-39 event leaves `lastUpdate` at its previous value instead of
copying the event's description into it. -/
theorem coffee_bean_lastUpdate_counterexample :
    (update exEvCB none exState).map (fun r => r.2.lastUpdate) =
      some "prev" ∧
    exEvCB.description = "Batter is Beaned!" ∧
    "prev" ≠ "Batter is Beaned!" := by
  refine ⟨by decide, rfl, by decide⟩

/-- The document produced by a pure copy-description transition: only
`scoreUpdate` (cleared pre-dispatch), `lastUpdate` and the driver's
`playCount` increment change. -/
def copyDescriptionDoc (g : GameUpdate) (desc : String) : GameUpdate :=
  { g with scoreUpdate := "", lastUpdate := desc,
           playCount := g.playCount + 1 }

/-- The document produced by a transition that writes nothing at all:
only the pre-dispatch `scoreUpdate` clear and the `playCount` increment. -/
def untouchedDoc (g : GameUpdate) : GameUpdate :=
  { g with scoreUpdate := "", playCount := g.playCount + 1 }

/-- C4 (amended): `no_state_change_pitch` (73) and
`no_state_change_batter_up` (92) copy the event's description into
`lastUpdate` and change nothing else beyond the pre-dispatch
`scoreUpdate` clear and the driver's `playCount` increment;
`coffee_bean` (39), under the same gating plus the bean/mod name check,
changes nothing at all — in particular it does *not* copy the
description. -/
theorem no_state_change_frame (s : GameState) (snap : Option GameUpdate)
    (desc bean_flavor mod_name : String) (pl : EventPayload)
    (hl : Option PlayerState) (n : String) :
    let ev73 : FeedEvent :=
      { etype := 73, description := desc, payload := pl, haunterLoad := hl }
    let ev92 : FeedEvent :=
      { etype := 92, description := desc, payload := pl, haunterLoad := hl }
    let ev39 : FeedEvent :=
      { etype := 39, description := desc, payload := EventPayload.coffee_bean n bean_flavor n mod_name, haunterLoad := hl }
    let doc2 : GameUpdate := copyDescriptionDoc s.game_update desc
    let s73 : GameState :=
      { s with expects_pitch := true, game_update := doc2 }
    let s92 : GameState :=
      { s with expects_batter_up := true, game_update := doc2 }
    let s39 : GameState :=
      { s with expects_pitch := true, game_update := untouchedDoc s.game_update }
    (update ev73 snap { s with expects_pitch := true } = some (s73, doc2)) ∧
    (update ev92 snap { s with expects_batter_up := true } =
      some (s92, doc2)) ∧
    (update ev39 snap { s with expects_pitch := true } =
      some (s39, untouchedDoc s.game_update)) := by
  refine ⟨rfl, rfl, ?_⟩
  simp only [update, step, updateCoffeeBean, EventPayload.asCoffeeBean,
    assertThat, Option.bind_eq_bind, Option.pure_def]
  simp [untouchedDoc]

/-! ## C9: `update_game_score` orders the teams by score -/

/-- C9: the final-score description puts the home team first exactly when
`homeScore > awayScore`; on a tie the away team comes first (the `else`
branch).  Part three: under a tie, the away-first description is the only
one the handler accepts. -/
theorem game_score_description_order (s : GameState)
    (snap : Option GameUpdate) (pl : EventPayload)
    (hl : Option PlayerState) :
    let an := s.awayState.nickname
    let hn := s.homeState.nickname
    let ascoreStr := tenthsStr s.game_update.away.score
    let hscoreStr := tenthsStr s.game_update.home.score
    let awayText := s!"{an} {ascoreStr}"
    let homeText := s!"{hn} {hscoreStr}"
    let awayFirst := s!"{awayText}, {homeText}"
    let homeFirst := s!"{homeText}, {awayText}"
    let s1 : GameState := { s with expects_game_end := true }
    let finish : String → GameUpdate := fun d =>
      { s.game_update with
          scoreUpdate := "", lastUpdate := d, finalized := true,
          gameComplete := true, playCount := s.game_update.playCount + 1 }
    let mkEv : String → FeedEvent := fun d =>
      { etype := 11, description := d, payload := pl, haunterLoad := hl }
    (s.game_update.home.score > s.game_update.away.score →
      update (mkEv homeFirst) snap s1 =
        some ({ s1 with game_update := finish homeFirst },
          finish homeFirst)) ∧
    (s.game_update.home.score ≤ s.game_update.away.score →
      update (mkEv awayFirst) snap s1 =
        some ({ s1 with game_update := finish awayFirst },
          finish awayFirst)) ∧
    (s.game_update.home.score = s.game_update.away.score →
      ∀ (d : String) (r : GameState × GameUpdate),
        update (mkEv d) snap s1 = some r → d = awayFirst) := by
  refine ⟨fun hgt => ?_, fun hle => ?_, fun heq d r h => ?_⟩
  · simp only [update, step, updateGameScore, assertThat,
      Option.bind_eq_bind, Option.pure_def]
    rw [if_pos hgt]
    simp
  · simp only [update, step, updateGameScore, assertThat,
      Option.bind_eq_bind, Option.pure_def]
    rw [if_neg (by omega :
      ¬ s.game_update.home.score > s.game_update.away.score)]
    simp
  · simp only [update, step, updateGameScore, assertThat,
      Option.bind_eq_bind, Option.bind_eq_some, Option.pure_def,
      Option.some_inj] at h
    rw [if_neg (by omega :
      ¬ s.game_update.home.score > s.game_update.away.score)] at h
    obtain ⟨rr, ⟨u1, hu1, u2, hu2, hrr⟩, hmatch⟩ := h
    split at hu2
    · rename_i hcond
      exact hcond.symm
    · exact Option.noConfusion hu2

/-- A tied final state (2–2) awaiting the game score event. -/
def exStateTieBase : GameState :=
  { exState with game_update :=
      { exDoc with away := { exAwayTF with score := 20 } } }

/-- C9 witness: the tie case of the ordering theorem at a concrete 2–2
state — the away team is listed first. -/
def exEvTieGS : FeedEvent :=
  { etype := 11, description := "Aways 2, Homes 2",
    payload := EventPayload.plain, haunterLoad := none }

theorem game_score_description_order_witness :
    ∃ r, update exEvTieGS none
      { exStateTieBase with expects_game_end := true } = some r ∧
      r.2.lastUpdate = "Aways 2, Homes 2" := by
  have h := (game_score_description_order exStateTieBase none
    EventPayload.plain none).2.1 (by decide)
  exact ⟨_, h, by decide⟩

/-! ## C10: the `heating_up` child of a hit -/

/-- Whether a list of trailing children begins with a `heating_up` child
(the grammar emits at most one, directly after the hit). -/
def headIsHeating : List Extra → Bool
  | .heating_up _ :: _ => true
  | _ => false

/-- C10: in `update_hit`, a leading `heating_up` child whose name differs
from the parsed batter name is fatal; when the names match the child is
popped and has no effect — processing with the child is identical to
processing without it (given that the remaining children do not
themselves begin with a `heating_up` child, which only the first position
of the parse can hold). -/
theorem hit_heating_up (s : GameState) (snap : Option GameUpdate)
    (desc bn basen : String) (rest : List Extra)
    (hl : Option PlayerState) :
    let mkHitEv : List Extra → FeedEvent := fun es =>
      { etype := 10, description := desc,
        payload := EventPayload.hit bn basen es, haunterLoad := hl }
    (∀ hn : String, hn ≠ bn →
      update (mkHitEv (Extra.heating_up hn :: rest)) snap
        { s with expects_pitch := true } = none) ∧
    (headIsHeating rest = false →
      update (mkHitEv (Extra.heating_up bn :: rest)) snap
          { s with expects_pitch := true } =
        update (mkHitEv rest) snap { s with expects_pitch := true }) := by
  constructor
  · intro hn hne
    simp only [update, step, updateHit, EventPayload.asHit, assertThat,
      Option.bind_eq_bind, Option.pure_def]
    simp [hne]
  · intro hno
    rcases rest with _ | ⟨e, r2⟩
    · simp only [update, step, updateHit, EventPayload.asHit, assertThat,
        Option.bind_eq_bind, Option.pure_def]
      simp
    · rcases e with e | e | e | e | e
      · simp only [update, step, updateHit, EventPayload.asHit, assertThat,
          Option.bind_eq_bind, Option.pure_def]
        simp
      · simp only [update, step, updateHit, EventPayload.asHit, assertThat,
          Option.bind_eq_bind, Option.pure_def]
        simp
      · simp only [update, step, updateHit, EventPayload.asHit, assertThat,
          Option.bind_eq_bind, Option.pure_def]
        simp
      · simp only [update, step, updateHit, EventPayload.asHit, assertThat,
          Option.bind_eq_bind, Option.pure_def]
        simp
      · exact absurd hno (by simp [headIsHeating])

def exEvHitBadHeat : FeedEvent :=
  { etype := 10, description := "d",
    payload := EventPayload.hit "Batter" "Single"
      [Extra.heating_up "Someone"],
    haunterLoad := none }

def exEvHitGoodHeat : FeedEvent :=
  { etype := 10, description := "d",
    payload := EventPayload.hit "Batter" "Single"
      [Extra.heating_up "Batter"],
    haunterLoad := none }

def exEvHitNoHeat : FeedEvent :=
  { etype := 10, description := "d",
    payload := EventPayload.hit "Batter" "Single" [],
    haunterLoad := none }

/-- C10 witness: both parts of the theorem at a concrete single. -/
theorem hit_heating_up_witness :
    update exEvHitBadHeat none { exState with expects_pitch := true } =
      none ∧
    update exEvHitGoodHeat none { exState with expects_pitch := true } =
      update exEvHitNoHeat none { exState with expects_pitch := true } :=
  ⟨(hit_heating_up exState none "d" "Batter" "Single" [] none).1
      "Someone" (by decide),
   (hit_heating_up exState none "d" "Batter" "Single" [] none).2
      (by decide)⟩

/-! ## C6: `update_base_steal` on a `stolen_base` parse -/

theorem pyIndex_get {α : Type} [BEq α] [LawfulBEq α] {l : List α} {x : α}
    {i : Nat} (h : pyIndex l x = some i) : l.get? i = some x := by
  induction l generalizing i with
  | nil => exact Option.noConfusion h
  | cons y ys ih =>
    unfold pyIndex at h
    split at h
    · injection h with h
      subst h
      simp only [List.get?]
      congr 1
      rename_i hbe
      exact LawfulBEq.eq_of_beq hbe
    · rw [Option.map_eq_some'] at h
      obtain ⟨j, hj, hji⟩ := h
      subst hji
      simpa using ih hj

theorem pyIndex_lt {α : Type} [BEq α] {l : List α} {x : α} {i : Nat}
    (h : pyIndex l x = some i) : i < l.length := by
  induction l generalizing i with
  | nil => exact Option.noConfusion h
  | cons y ys ih =>
    unfold pyIndex at h
    split at h
    · injection h with h
      subst h
      simp
    · rw [Option.map_eq_some'] at h
      obtain ⟨j, hj, hji⟩ := h
      subst hji
      have := ih hj
      simp only [List.length_cons]
      omega

/-- Fixture for the stolen-base claim: `exState` with the runner moved back to
first base (`basesOccupied = [0]`), ready to steal second. -/
def exStateSteal : GameState :=
  { exState with game_update := { exDoc with basesOccupied := [0] } }

set_option maxHeartbeats 1000000 in
/-- C6: `update_base_steal` on a `stolen_base` parse locates the stealer as the
runner occupying base `base_stolen - 1` (failing when no runner occupies that
base), increments that runner's entry in `basesOccupied` by one, and scores the
runner (removing them from all four baserunner arrays, decrementing
`baserunnerCount`, adding one run and setting `scoreUpdate` to
"1 Run scored!") exactly when the stolen base equals `teamBases - 1`;
otherwise the arrays, count, score and `scoreUpdate` are untouched apart from
the incremented base. -/
theorem base_steal_stolen_base (s : GameState) (snap : Option GameUpdate)
    (desc stealer_name base_name : String) (hl : Option PlayerState)
    (b : Int) (hb : BASE_NUM_FOR_NAME base_name = some b) :
    let mkEv : StealKind → List Extra → FeedEvent := fun k es =>
      { etype := 4, description := desc,
        payload := EventPayload.steal k stealer_name base_name es,
        haunterLoad := hl }
    let s1 : GameState := { s with expects_pitch := true }
    (∀ (k : StealKind) (es : List Extra),
      pyIndex s.game_update.basesOccupied (b - 1) = none →
      update (mkEv k es) snap s1 = none) ∧
    (∀ i : Nat,
      pyIndex s.game_update.basesOccupied (b - 1) = some i →
      s.game_update.baseRunnerNames.get? i = some stealer_name →
      BRInv s.game_update →
      ((b + 1 ≠ (s.game_update.tf s.curSide).bases →
        ∃ s2 d, update (mkEv .stolen_base []) snap s1 = some (s2, d) ∧
          d.basesOccupied = s.game_update.basesOccupied.set i b ∧
          d.baseRunners = s.game_update.baseRunners ∧
          d.baseRunnerNames = s.game_update.baseRunnerNames ∧
          d.baseRunnerMods = s.game_update.baseRunnerMods ∧
          d.baserunnerCount = s.game_update.baserunnerCount ∧
          (d.tf s.curSide).score = (s.game_update.tf s.curSide).score ∧
          d.scoreUpdate = "") ∧
       (b + 1 = (s.game_update.tf s.curSide).bases →
        pyIndex s.game_update.baseRunnerNames stealer_name = some i →
        ∃ s2 d, update (mkEv .stolen_base []) snap s1 = some (s2, d) ∧
          d.basesOccupied = (s.game_update.basesOccupied.set i b).eraseIdx i ∧
          d.baseRunners = s.game_update.baseRunners.eraseIdx i ∧
          d.baseRunnerNames = s.game_update.baseRunnerNames.eraseIdx i ∧
          d.baseRunnerMods = s.game_update.baseRunnerMods.eraseIdx i ∧
          d.baserunnerCount = s.game_update.baserunnerCount - 1 ∧
          (d.tf s.curSide).score = (s.game_update.tf s.curSide).score + 10 ∧
          d.scoreUpdate = "1 Run scored!"))) := by
  intro mkEv s1
  constructor
  · intro k es hnone
    simp only [update, step, updateBaseSteal, EventPayload.asSteal,
      assertThat, Option.bind_eq_bind, Option.pure_def]
    simp [hb, hnone]
  · intro i hidx hname hInv
    have hgetocc : s.game_update.basesOccupied.get? i = some (b - 1) :=
      pyIndex_get hidx
    have hlt : i < s.game_update.basesOccupied.length := pyIndex_lt hidx
    obtain ⟨l1, l2, l3, l4⟩ := hInv
    have hb1 : b - 1 + 1 = b := by omega
    constructor
    · intro hne
      cases hcs : s.game_update.topOfInning <;>
        simp only [GameState.curSide, GameUpdate.tf, hcs, Bool.false_eq_true,
          if_true, if_false, ite_true, ite_false] at hne ⊢ <;>
        simp only [update, step, updateBaseSteal, EventPayload.asSteal,
          assertThat, Option.bind_eq_bind, Option.pure_def] <;>
        simp only [hb, hidx, hname, hgetocc, Option.some_bind, hb1] <;>
        simp only [stolenBaseScore, stolenBaseFinish, GameState.curSide,
          GameUpdate.tf, hcs, Bool.false_eq_true, if_true, if_false,
          ite_true, ite_false] <;>
        rw [if_neg hne] <;>
        simp [recordRuns, assertThat] <;>
        exact ⟨_, _, ⟨rfl, rfl⟩, rfl, rfl, rfl, rfl, rfl, rfl, rfl⟩
    · intro heq hnameidx
      have hp1 : pyPop s.game_update.baseRunners i
          = some (s.game_update.baseRunners.eraseIdx i) :=
        pyPop_eq_some.mpr ⟨by omega, rfl⟩
      have hp2 : pyPop s.game_update.baseRunnerNames i
          = some (s.game_update.baseRunnerNames.eraseIdx i) :=
        pyPop_eq_some.mpr ⟨by omega, rfl⟩
      have hp3 : pyPop s.game_update.baseRunnerMods i
          = some (s.game_update.baseRunnerMods.eraseIdx i) :=
        pyPop_eq_some.mpr ⟨by omega, rfl⟩
      have hp4 : pyPop (s.game_update.basesOccupied.set i b) i
          = some ((s.game_update.basesOccupied.set i b).eraseIdx i) :=
        pyPop_eq_some.mpr ⟨by simpa using hlt, rfl⟩
      cases hcs : s.game_update.topOfInning <;>
        simp only [GameState.curSide, GameUpdate.tf, hcs, Bool.false_eq_true,
          if_true, if_false, ite_true, ite_false] at heq ⊢ <;>
        simp only [update, step, updateBaseSteal, EventPayload.asSteal,
          assertThat, Option.bind_eq_bind, Option.pure_def] <;>
        simp only [hb, hidx, hname, hgetocc, Option.some_bind, hb1] <;>
        simp only [stolenBaseScore, stolenBaseFinish, scorePlayer,
          removeBaserunnerByIndex, scoreRuns, applyScoringExtras,
          GameState.curSide, GameUpdate.tf, GameUpdate.modTF,
          GameUpdate.setInningScore, GameUpdate.inningScore, hcs,
          Bool.false_eq_true, if_true, if_false, ite_true, ite_false] <;>
        rw [if_pos heq] <;>
        simp [recordRuns, assertThat, hnameidx, hp1, hp2, hp3, hp4] <;>
        exact ⟨_, _, ⟨rfl, rfl⟩, rfl, rfl, rfl, rfl, rfl, rfl, rfl⟩

theorem base_steal_stolen_base_witness :
    ∃ s2 d,
      update { etype := 4, description := "Runner steals second base!",
               payload := EventPayload.steal .stolen_base "Runner" "second" [],
               haunterLoad := none } none
        { exStateSteal with expects_pitch := true } = some (s2, d) ∧
      d.basesOccupied = [(1 : Int)] ∧ d.scoreUpdate = "" := by
  have h := ((base_steal_stolen_base exStateSteal none
      "Runner steals second base!" "Runner" "second" none 1 (by decide)).2
      0 (by decide) (by decide) ⟨rfl, rfl, rfl, rfl⟩).1 (by decide)
  obtain ⟨s2, d, hu, hbo, -, -, -, -, -, hsu⟩ := h
  refine ⟨s2, d, hu, ?_, hsu⟩
  rw [hbo]
  rfl

